import Mathlib

/-!
# Verification of the amboy `queueManager` management layer

Shallow embedding of `vendor/github.com/mongodb/amboy/management/queue.go`.

Modelling conventions:
* Timestamps and durations are `Int` nanoseconds; `time.Since(t)` is `now - t`
  with `now` passed explicitly; `time.Second` is `10^9`.
* The queue (`amboy.Queue`) is modelled by a snapshot of its status stream
  (`JobStats`), its results stream (`Results`), and the point lookup `Get`,
  which, exactly like the Go signature `Get(ctx, id) (amboy.Job, bool)`,
  returns a handle together with a found flag.
* Go maps (`map[string]int`, `map[string]JobErrorsForType`, ...) are modelled
  as association lists updated in place by key; iteration order of a Go map is
  unspecified, the model fixes first-insertion order as a deterministic
  representative.
* `ErrorCount` is a `Nat` (the spec guarantees it is a non-negative count), so
  Go's truncating integer division on it coincides with `Nat` division.
* `float64(v.Total / v.Count)` stores the exact value of the Go *integer*
  quotient, which the model keeps as a `Nat` in the `Average` field.
* The side effect `queue.Complete(ctx, job)` is recorded by returning the list
  of handles (with their lookup flag) it was invoked on, in order.
-/

/-- `amboy.JobTimeInfo`: the `{Created, Start, End}` timestamps of a job. -/
structure TimeInfo where
  Created : Int
  Start : Int
  End : Int
deriving DecidableEq, Repr

/-- `amboy.JobStatusInfo` as consumed by `queue.go`: one record of the status
stream (`JobStats`). -/
structure JobStatusInfo where
  ID : String
  Completed : Bool
  InProgress : Bool
  ModificationTime : Int
  ErrorCount : Nat
  Errors : List String
deriving DecidableEq, Repr

/-- An `amboy.Job` handle as used by `queue.go`: its type name
(`job.Type().Name`), its `job.TimeInfo()` and its `job.Status()`. -/
structure Job where
  typeName : String
  timeInfo : TimeInfo
  status : JobStatusInfo
deriving DecidableEq, Repr

/-- The `amboy.Queue` collaborator as used by `queueManager`: the status
stream, the results stream and the point lookup (returning a handle and a
found flag, like the Go `Get(ctx, id) (amboy.Job, bool)`). -/
structure Queue where
  JobStats : List JobStatusInfo
  Results : List Job
  Get : String → Job × Bool

/-- Errors returned by the management operations: `ValidationError`
(unrecognized filter, window too small) and `NotFoundError` (from
`CompleteJob`). -/
inductive MgmtError where
  | validation : String → MgmtError
  | notFound : String → MgmtError
deriving DecidableEq, Repr

/-- Go's `time.Second` in nanoseconds. -/
def second : Int := 1000000000

/-- `management.CounterFilter`, a string enumeration. -/
abbrev CounterFilter := String

/-- `management.RuntimeFilter`, a string enumeration. -/
abbrev RuntimeFilter := String

/-- `management.ErrorFilter`, a string enumeration. -/
abbrev ErrorFilter := String

/-- Modelled from the spec: the `InProgress` counter-filter constant (the
file defining the filter constants is not part of the sources; the concrete
string value is immaterial, the constants only need to be distinct). -/
def InProgress : CounterFilter := "in-progress"

/-- Modelled from the spec: the `Pending` counter-filter constant. -/
def Pending : CounterFilter := "pending"

/-- Modelled from the spec: the `Stale` counter-filter constant. -/
def Stale : CounterFilter := "stale"

/-- Modelled from the spec: the `Duration` runtime-filter constant. -/
def Duration : RuntimeFilter := "duration"

/-- Modelled from the spec: the `Latency` runtime-filter constant. -/
def Latency : RuntimeFilter := "latency"

/-- Modelled from the spec: the `Running` runtime-filter constant. -/
def Running : RuntimeFilter := "running"

/-- Modelled from the spec: the `UniqueErrors` error-filter constant. -/
def UniqueErrors : ErrorFilter := "unique-errors"

/-- Modelled from the spec: the `AllErrors` error-filter constant. -/
def AllErrors : ErrorFilter := "all-errors"

/-- Modelled from the spec: the `StatsOnly` error-filter constant. -/
def StatsOnly : ErrorFilter := "stats-only"

/-- Modelled from the spec: `CounterFilter.Validate` checks that the filter
belongs to the enumerated set `{InProgress, Pending, Stale}` and rejects
anything else with a `ValidationError` (the Go `Validate` method lives in a
source file that is not included). -/
def CounterFilter.Validate (f : CounterFilter) : Option MgmtError :=
  if f = InProgress ∨ f = Pending ∨ f = Stale then none
  else some (.validation "invalid counter filter")

/-- Modelled from the spec: `RuntimeFilter.Validate` checks membership in
`{Duration, Latency, Running}`. -/
def RuntimeFilter.Validate (f : RuntimeFilter) : Option MgmtError :=
  if f = Duration ∨ f = Latency ∨ f = Running then none
  else some (.validation "invalid runtime filter")

/-- Modelled from the spec: `ErrorFilter.Validate` checks membership in
`{UniqueErrors, AllErrors, StatsOnly}`. -/
def ErrorFilter.Validate (f : ErrorFilter) : Option MgmtError :=
  if f = UniqueErrors ∨ f = AllErrors ∨ f = StatsOnly then none
  else some (.validation "invalid error filter")

/-- `management.JobCounters`: one per-type counter of a status report. -/
structure JobCounters where
  ID : String
  Count : Nat
deriving DecidableEq, Repr

/-- `management.JobStatusReport`. -/
structure JobStatusReport where
  Filter : String
  Stats : List JobCounters
deriving DecidableEq, Repr

/-- `management.JobRuntimes`: one per-type mean runtime. -/
structure JobRuntimes where
  ID : String
  Duration : Int
deriving DecidableEq, Repr

/-- `management.JobRuntimeReport`. -/
structure JobRuntimeReport where
  Filter : String
  Period : Int
  Stats : List JobRuntimes
deriving DecidableEq, Repr

/-- `management.JobReportIDs`.  The Go field `Type` is spelled `JobType`
because `Type` is reserved in Lean. -/
structure JobReportIDs where
  Filter : String
  JobType : String
  IDs : List String
deriving DecidableEq, Repr

/-- `management.JobErrorsForType`: one per-type error bucket.  `Average`
holds the value of `float64(Total / Count)`; since `Total` and `Count` are
non-negative integers the Go expression is the exact integer quotient, kept
here as a `Nat`. -/
structure JobErrorsForType where
  ID : String
  Count : Nat
  Total : Nat
  Average : Nat
  Errors : List String
deriving DecidableEq, Repr

/-- The zero value of `JobErrorsForType` (what `collector[jt]` reads for a
missing key in Go). -/
def zeroJEFT : JobErrorsForType :=
  { ID := "", Count := 0, Total := 0, Average := 0, Errors := [] }

/-- `management.JobErrorsReport`. -/
structure JobErrorsReport where
  Period : Int
  FilteredByType : Bool
  Data : List JobErrorsForType
deriving DecidableEq, Repr

/-- Association-list lookup, modelling a read of a Go map. -/
def lookupAssoc {α : Type} : List (String × α) → String → Option α
  | [], _ => none
  | (k, v) :: rest, key => if k = key then some v else lookupAssoc rest key

/-- Association-list read-modify-write, modelling the Go idiom
`val := m[key]; ...; m[key] = val` (with `d` the zero value read for a
missing key).  An absent key is appended, an existing key is updated in
place. -/
def updateAssoc {α : Type} (m : List (String × α)) (key : String) (d : α) (f : α → α) :
    List (String × α) :=
  match m with
  | [] => [(key, f d)]
  | (k, v) :: rest =>
    if k = key then (k, f v) :: rest else (k, v) :: updateAssoc rest key d f

/-- The `InProgress` state predicate of `JobStatus`/`JobIDsByState`:
`stat.InProgress`. -/
def inProgressPred (stat : JobStatusInfo) : Bool :=
  stat.InProgress

/-- The `Pending` state predicate: `!stat.Completed && !stat.InProgress`. -/
def pendingPred (stat : JobStatusInfo) : Bool :=
  !stat.Completed && !stat.InProgress

/-- The `Stale` state predicate:
`!stat.Completed && stat.InProgress && time.Since(stat.ModificationTime) > amboy.LockTimeout`.
`lockTimeout` (the spec's `StalenessThreshold`) is passed explicitly, the
constant `amboy.LockTimeout` being configuration of the collaborator. -/
def stalePred (now lockTimeout : Int) (stat : JobStatusInfo) : Bool :=
  !stat.Completed && stat.InProgress && decide (now - stat.ModificationTime > lockTimeout)

/-- One iteration of the counting loops of `JobStatus`: on a predicate match,
resolve the job by point lookup and, if found, increment its type's counter
(`counters[job.Type().Name]++`). -/
def statusStep (q : Queue) (pred : JobStatusInfo → Bool)
    (counters : List (String × Nat)) (stat : JobStatusInfo) : List (String × Nat) :=
  if pred stat then
    let jo := q.Get stat.ID
    if jo.2 then updateAssoc counters jo.1.typeName 0 (fun n => n + 1) else counters
  else counters

/-- The per-type counters accumulated by one of the three loops of
`JobStatus` (the three `case` bodies are identical up to the state
predicate). -/
def statusCounters (q : Queue) (pred : JobStatusInfo → Bool) : List (String × Nat) :=
  q.JobStats.foldl (statusStep q pred) []

/-- `queueManager.JobStatus`: validate the filter, count matching jobs per
type (the `switch` has no `default`, so an unmatched filter would fall
through to an empty report), and render the report with `Filter = string(f)`. -/
def JobStatus (q : Queue) (now lockTimeout : Int) (f : CounterFilter) :
    Except MgmtError JobStatusReport :=
  match CounterFilter.Validate f with
  | some e => .error e
  | none =>
    let counters :=
      if f = InProgress then statusCounters q inProgressPred
      else if f = Pending then statusCounters q pendingPred
      else if f = Stale then statusCounters q (stalePred now lockTimeout)
      else []
    .ok { Filter := f,
          Stats := counters.map (fun kv => { ID := kv.1, Count := kv.2 }) }

/-- One iteration of the loops of `JobIDsByState`.  With a non-empty
`jobType` the source resolves the job and skips the record only when
`!ok && job.Type().Name != jobType`; when the lookup succeeds the record is
*not* skipped even if the type differs.  A record not skipped is appended to
`ids` whenever the state predicate holds. -/
def idsStep (q : Queue) (jobType : String) (pred : JobStatusInfo → Bool)
    (ids : List String) (stat : JobStatusInfo) : List String :=
  let skip : Bool :=
    if jobType ≠ "" then
      let jo := q.Get stat.ID
      !jo.2 && jo.1.typeName ≠ jobType
    else false
  if skip then ids
  else if pred stat then ids ++ [stat.ID] else ids

/-- The identifier list accumulated by one of the three loops of
`JobIDsByState`. -/
def idsByStatePass (q : Queue) (jobType : String) (pred : JobStatusInfo → Bool) :
    List String :=
  q.JobStats.foldl (idsStep q jobType pred) []

/-- `queueManager.JobIDsByState`: validate the filter, collect matching
identifiers (optionally under the type restriction), and render the report;
the `default` branch returns "invalid job status filter". -/
def JobIDsByState (q : Queue) (now lockTimeout : Int) (jobType : String)
    (f : CounterFilter) : Except MgmtError JobReportIDs :=
  match CounterFilter.Validate f with
  | some e => .error e
  | none =>
    let ids? :=
      if f = InProgress then some (idsByStatePass q jobType inProgressPred)
      else if f = Pending then some (idsByStatePass q jobType pendingPred)
      else if f = Stale then some (idsByStatePass q jobType (stalePred now lockTimeout))
      else none
    match ids? with
    | none => .error (.validation "invalid job status filter")
    | some ids => .ok { Filter := f, JobType := jobType, IDs := ids }

/-- One iteration of the `Duration` loop of `RecentTiming`, over the results
stream: include a job if `stat.Completed && time.Since(ti.End) < window`,
contributing `ti.End - ti.Start` to its type's bucket. -/
def durationStep (now window : Int) (counters : List (String × List Int)) (job : Job) :
    List (String × List Int) :=
  if job.status.Completed && decide (now - job.timeInfo.End < window) then
    updateAssoc counters job.typeName [] (fun v => v ++ [job.timeInfo.End - job.timeInfo.Start])
  else counters

/-- The `Duration` buckets of `RecentTiming`. -/
def durationCounters (q : Queue) (now window : Int) : List (String × List Int) :=
  q.Results.foldl (durationStep now window) []

/-- One iteration of the `Latency` loop of `RecentTiming`, over the status
stream: skip on lookup failure; include if
`!stat.Completed && time.Since(ti.End) < window`, contributing
`time.Since(ti.Created)` to the bucket. -/
def latencyStep (q : Queue) (now window : Int)
    (counters : List (String × List Int)) (stat : JobStatusInfo) :
    List (String × List Int) :=
  let jo := q.Get stat.ID
  if !jo.2 then counters
  else if !stat.Completed && decide (now - jo.1.timeInfo.End < window) then
    updateAssoc counters jo.1.typeName [] (fun v => v ++ [now - jo.1.timeInfo.Created])
  else counters

/-- The `Latency` buckets of `RecentTiming`. -/
def latencyCounters (q : Queue) (now window : Int) : List (String × List Int) :=
  q.JobStats.foldl (latencyStep q now window) []

/-- One iteration of the `Running` loop of `RecentTiming`: include a record
if `!stat.Completed && stat.InProgress` (skipping lookup failures),
contributing `time.Since(ti.Start)`. -/
def runningStep (q : Queue) (now : Int)
    (counters : List (String × List Int)) (stat : JobStatusInfo) :
    List (String × List Int) :=
  if !stat.Completed && stat.InProgress then
    let jo := q.Get stat.ID
    if !jo.2 then counters
    else updateAssoc counters jo.1.typeName [] (fun v => v ++ [now - jo.1.timeInfo.Start])
  else counters

/-- The `Running` buckets of `RecentTiming`. -/
def runningCounters (q : Queue) (now : Int) : List (String × List Int) :=
  q.JobStats.foldl (runningStep q now) []

/-- `var total; for _, i := range v { total += i }`. -/
def sumDurations (v : List Int) : Int :=
  v.foldl (fun total i => total + i) 0

/-- The render loop of `RecentTiming`: per bucket, report
`total / time.Duration(len(v))` (Go `int64` division truncates toward zero,
hence `Int.tdiv`). -/
def renderRuntimes (counters : List (String × List Int)) : List JobRuntimes :=
  counters.map (fun kv =>
    { ID := kv.1, Duration := Int.tdiv (sumDurations kv.2) (Int.ofNat kv.2.length) })

/-- `queueManager.RecentTiming`: validate the filter, reject `window <= 1s`,
accumulate the buckets of the requested mode, and render the mean per type;
the `default` branch returns "invalid job runtime filter". -/
def RecentTiming (q : Queue) (now window : Int) (f : RuntimeFilter) :
    Except MgmtError JobRuntimeReport :=
  match RuntimeFilter.Validate f with
  | some e => .error e
  | none =>
    if window ≤ second then
      .error (.validation "must specify windows greater than one second")
    else
      let counters? :=
        if f = Duration then some (durationCounters q now window)
        else if f = Latency then some (latencyCounters q now window)
        else if f = Running then some (runningCounters q now)
        else none
      match counters? with
      | none => .error (.validation "invalid job runtime filter")
      | some counters =>
        .ok { Filter := f, Period := window, Stats := renderRuntimes counters }

/-- One iteration of the accumulation loop shared verbatim by the
`UniqueErrors` and `AllErrors` cases of `RecentErrors`: a record is eligible
if `stat.Completed && stat.ErrorCount > 0`; skip on lookup failure; skip if
`time.Since(ti.End) > window`; then `Count++`, `Total += stat.ErrorCount`,
`Errors = append(Errors, stat.Errors...)` on the bucket of the job's type. -/
def errorsStep (q : Queue) (now window : Int)
    (collector : List (String × JobErrorsForType)) (stat : JobStatusInfo) :
    List (String × JobErrorsForType) :=
  if stat.Completed && decide (0 < stat.ErrorCount) then
    let jo := q.Get stat.ID
    if !jo.2 then collector
    else if decide (now - jo.1.timeInfo.End > window) then collector
    else
      updateAssoc collector jo.1.typeName zeroJEFT (fun val =>
        { val with
          Count := val.Count + 1
          Total := val.Total + stat.ErrorCount
          Errors := val.Errors ++ stat.Errors })
  else collector

/-- The collector built by the accumulation loop of the `UniqueErrors` and
`AllErrors` cases of `RecentErrors` (the two loops are textually identical
in the source). -/
def errorsCollector (q : Queue) (now window : Int) :
    List (String × JobErrorsForType) :=
  q.JobStats.foldl (errorsStep q now window) []

/-- One iteration of the `StatsOnly` loop of `RecentErrors`: identical to
`errorsStep` except that `Errors` is not accumulated. -/
def statsOnlyStep (q : Queue) (now window : Int)
    (collector : List (String × JobErrorsForType)) (stat : JobStatusInfo) :
    List (String × JobErrorsForType) :=
  if stat.Completed && decide (0 < stat.ErrorCount) then
    let jo := q.Get stat.ID
    if !jo.2 then collector
    else if decide (now - jo.1.timeInfo.End > window) then collector
    else
      updateAssoc collector jo.1.typeName zeroJEFT (fun val =>
        { val with
          Count := val.Count + 1
          Total := val.Total + stat.ErrorCount })
  else collector

/-- The collector built by the `StatsOnly` case of `RecentErrors`. -/
def statsOnlyCollector (q : Queue) (now window : Int) :
    List (String × JobErrorsForType) :=
  q.JobStats.foldl (statsOnlyStep q now window) []

/-- The post-pass of the `UniqueErrors` case: per bucket, replace `Errors`
with its distinct elements (the Go code inserts them into a set and reads
them back in unspecified order; the model uses `List.dedup` as a
deterministic representative). -/
def dedupErrors (collector : List (String × JobErrorsForType)) :
    List (String × JobErrorsForType) :=
  collector.map (fun kv => (kv.1, { kv.2 with Errors := kv.2.Errors.dedup }))

/-- The render loop shared by `RecentErrors` and `RecentJobErrors`:
`v.ID = k; v.Average = float64(v.Total / v.Count)` per bucket (integer
division; see the remark on `JobErrorsForType.Average`). -/
def renderErrorReports (collector : List (String × JobErrorsForType)) :
    List JobErrorsForType :=
  collector.map (fun kv => { kv.2 with ID := kv.1, Average := kv.2.Total / kv.2.Count })

/-- `queueManager.RecentErrors`: validate the filter, reject `window <= 1s`,
accumulate per the mode, and render with `FilteredByType = false`; the
`default` branch returns "operation is not supported". -/
def RecentErrors (q : Queue) (now window : Int) (f : ErrorFilter) :
    Except MgmtError JobErrorsReport :=
  match ErrorFilter.Validate f with
  | some e => .error e
  | none =>
    if window ≤ second then
      .error (.validation "must specify windows greater than one second")
    else
      let collector? :=
        if f = UniqueErrors then some (dedupErrors (errorsCollector q now window))
        else if f = AllErrors then some (errorsCollector q now window)
        else if f = StatsOnly then some (statsOnlyCollector q now window)
        else none
      match collector? with
      | none => .error (.validation "operation is not supported")
      | some collector =>
        .ok { Period := window, FilteredByType := false,
              Data := renderErrorReports collector }

/-- One iteration of the accumulation loop shared by the `UniqueErrors` and
`AllErrors` cases of `RecentJobErrors`: as `errorsStep`, with an extra skip
when `job.Type().Name != jobType` (checked after the lookup, before the
window test) and the bucket keyed by `jobType`. -/
def jobErrorsStep (q : Queue) (jobType : String) (now window : Int)
    (collector : List (String × JobErrorsForType)) (stat : JobStatusInfo) :
    List (String × JobErrorsForType) :=
  if stat.Completed && decide (0 < stat.ErrorCount) then
    let jo := q.Get stat.ID
    if !jo.2 then collector
    else if jo.1.typeName ≠ jobType then collector
    else if decide (now - jo.1.timeInfo.End > window) then collector
    else
      updateAssoc collector jobType zeroJEFT (fun val =>
        { val with
          Count := val.Count + 1
          Total := val.Total + stat.ErrorCount
          Errors := val.Errors ++ stat.Errors })
  else collector

/-- The collector of the `UniqueErrors`/`AllErrors` cases of
`RecentJobErrors`. -/
def jobErrorsCollector (q : Queue) (jobType : String) (now window : Int) :
    List (String × JobErrorsForType) :=
  q.JobStats.foldl (jobErrorsStep q jobType now window) []

/-- One iteration of the `StatsOnly` loop of `RecentJobErrors`. -/
def jobStatsOnlyStep (q : Queue) (jobType : String) (now window : Int)
    (collector : List (String × JobErrorsForType)) (stat : JobStatusInfo) :
    List (String × JobErrorsForType) :=
  if stat.Completed && decide (0 < stat.ErrorCount) then
    let jo := q.Get stat.ID
    if !jo.2 then collector
    else if jo.1.typeName ≠ jobType then collector
    else if decide (now - jo.1.timeInfo.End > window) then collector
    else
      updateAssoc collector jobType zeroJEFT (fun val =>
        { val with
          Count := val.Count + 1
          Total := val.Total + stat.ErrorCount })
  else collector

/-- The collector of the `StatsOnly` case of `RecentJobErrors`. -/
def jobStatsOnlyCollector (q : Queue) (jobType : String) (now window : Int) :
    List (String × JobErrorsForType) :=
  q.JobStats.foldl (jobStatsOnlyStep q jobType now window) []

/-- `queueManager.RecentJobErrors`: as `RecentErrors` but restricted to one
job type and rendered with `FilteredByType = true`. -/
def RecentJobErrors (q : Queue) (jobType : String) (now window : Int)
    (f : ErrorFilter) : Except MgmtError JobErrorsReport :=
  match ErrorFilter.Validate f with
  | some e => .error e
  | none =>
    if window ≤ second then
      .error (.validation "must specify windows greater than one second")
    else
      let collector? :=
        if f = UniqueErrors then some (dedupErrors (jobErrorsCollector q jobType now window))
        else if f = AllErrors then some (jobErrorsCollector q jobType now window)
        else if f = StatsOnly then some (jobStatsOnlyCollector q jobType now window)
        else none
      match collector? with
      | none => .error (.validation "operation is not supported")
      | some collector =>
        .ok { Period := window, FilteredByType := true,
              Data := renderErrorReports collector }

/-- `queueManager.CompleteJob`: point lookup; if absent, return the
not-found error without invoking completion; else invoke `queue.Complete`
on the resolved handle (recorded in the first component) and return no
error.  `queue.Complete` returns nothing in Go, so there is no completion
outcome to consult.  (The Go message quotes the name; the quotes are left
out here.) -/
def CompleteJob (q : Queue) (name : String) : List Job × Option MgmtError :=
  let jo := q.Get name
  if !jo.2 then
    ([], some (.notFound ("cannot recover job with name " ++ name)))
  else
    ([jo.1], none)

/-- One iteration of `CompleteJobsByType`: skip records already completed;
resolve the job; skip only when `ok && job.Type().Name != jobType`; otherwise
invoke `queue.Complete(ctx, job)` — including, when the lookup failed, on the
absent handle (the pair records the handle and its found flag). -/
def completeByTypeStep (q : Queue) (jobType : String)
    (invocations : List (Job × Bool)) (stat : JobStatusInfo) : List (Job × Bool) :=
  if stat.Completed then invocations
  else
    let jo := q.Get stat.ID
    if jo.2 && jo.1.typeName ≠ jobType then invocations
    else invocations ++ [jo]

/-- `queueManager.CompleteJobsByType`: one pass over the status stream; the
first component records every `queue.Complete` invocation (handle plus the
found flag of the lookup that produced it); the second component is the
returned error, which is always `none` (`return nil`). -/
def CompleteJobsByType (q : Queue) (jobType : String) :
    List (Job × Bool) × Option MgmtError :=
  (q.JobStats.foldl (completeByTypeStep q jobType) [], none)

/-! ## Association-list lemmas -/

theorem lookupAssoc_updateAssoc {α : Type} (m : List (String × α)) (key : String)
    (d : α) (f : α → α) (key2 : String) :
    lookupAssoc (updateAssoc m key d f) key2 =
      if key2 = key then some (f ((lookupAssoc m key).getD d))
      else lookupAssoc m key2 := by
  induction m with
  | nil =>
    by_cases h : key2 = key
    · subst h
      simp [updateAssoc, lookupAssoc]
    · have h' : ¬ key = key2 := fun hh => h hh.symm
      simp [updateAssoc, lookupAssoc, h, h']
  | cons kv rest ih =>
    obtain ⟨k, v⟩ := kv
    by_cases hk : k = key
    · subst hk
      by_cases h2 : key2 = k
      · subst h2
        simp [updateAssoc, lookupAssoc]
      · have h2' : ¬ k = key2 := fun hh => h2 hh.symm
        simp [updateAssoc, lookupAssoc, h2, h2']
    · by_cases h2 : k = key2
      · subst h2
        have hne : ¬ k = key := hk
        simp [updateAssoc, lookupAssoc, hk, hne]
      · simp [updateAssoc, lookupAssoc, hk, h2, ih]

theorem lookupAssoc_eq_none_iff {α : Type} (m : List (String × α)) (key : String) :
    lookupAssoc m key = none ↔ key ∉ m.map Prod.fst := by
  induction m with
  | nil => simp [lookupAssoc]
  | cons kv rest ih =>
    obtain ⟨k, v⟩ := kv
    by_cases hk : k = key
    · simp [lookupAssoc, hk]
    · have hk' : ¬ key = k := fun hh => hk hh.symm
      simp [lookupAssoc, hk, hk', ih]

theorem keys_updateAssoc {α : Type} (m : List (String × α)) (key : String)
    (d : α) (f : α → α) :
    (updateAssoc m key d f).map Prod.fst =
      if (lookupAssoc m key).isSome then m.map Prod.fst
      else m.map Prod.fst ++ [key] := by
  induction m with
  | nil => simp [updateAssoc, lookupAssoc]
  | cons kv rest ih =>
    obtain ⟨k, v⟩ := kv
    by_cases hk : k = key
    · simp [updateAssoc, lookupAssoc, hk]
    · simp only [updateAssoc, if_neg hk, lookupAssoc, List.map_cons, ih]
      by_cases hs : (lookupAssoc rest key).isSome
      · simp [hs, hk]
      · simp [hs, hk]

theorem nodup_keys_updateAssoc {α : Type} (m : List (String × α)) (key : String)
    (d : α) (f : α → α) (hm : (m.map Prod.fst).Nodup) :
    ((updateAssoc m key d f).map Prod.fst).Nodup := by
  rw [keys_updateAssoc]
  by_cases hs : (lookupAssoc m key).isSome
  · simpa [hs] using hm
  · have hnone : lookupAssoc m key = none := by
      cases h : lookupAssoc m key
      · rfl
      · simp [h] at hs
    have hnotmem : key ∉ m.map Prod.fst := (lookupAssoc_eq_none_iff m key).mp hnone
    simp [hs, List.nodup_append, hm, hnotmem]

theorem mem_updateAssoc_prop {α : Type} (P : α → Prop) (m : List (String × α))
    (key : String) (d : α) (f : α → α) (hf : ∀ v, P (f v))
    (hm : ∀ kv ∈ m, P kv.2) :
    ∀ kv ∈ updateAssoc m key d f, P kv.2 := by
  induction m with
  | nil =>
    intro kv hkv
    simp only [updateAssoc, List.mem_singleton] at hkv
    rw [hkv]
    exact hf d
  | cons hd rest ih =>
    obtain ⟨k, v⟩ := hd
    intro kv hkv
    by_cases hk : k = key
    · rw [updateAssoc, if_pos hk] at hkv
      rcases List.mem_cons.mp hkv with h | h
      · rw [h]
        exact hf v
      · exact hm kv (List.mem_cons_of_mem _ h)
    · rw [updateAssoc, if_neg hk] at hkv
      rcases List.mem_cons.mp hkv with h | h
      · exact h ▸ hm (k, v) (List.mem_cons_self _ _)
      · exact ih (fun kv' h' => hm kv' (List.mem_cons_of_mem _ h')) kv h

/-! ## Generic fold lemmas -/

theorem nodup_keys_foldl {α σ : Type} (step : List (String × α) → σ → List (String × α))
    (hstep : ∀ m s, (m.map Prod.fst).Nodup → ((step m s).map Prod.fst).Nodup) :
    ∀ (l : List σ) (m : List (String × α)), (m.map Prod.fst).Nodup →
      ((l.foldl step m).map Prod.fst).Nodup := by
  intro l
  induction l with
  | nil => intro m hm; simpa using hm
  | cons s rest ih =>
    intro m hm
    rw [List.foldl_cons]
    exact ih (step m s) (hstep m s hm)

theorem mem_foldl_prop {α σ : Type} (P : α → Prop)
    (step : List (String × α) → σ → List (String × α))
    (hstep : ∀ m s, (∀ kv ∈ m, P kv.2) → ∀ kv ∈ step m s, P kv.2) :
    ∀ (l : List σ) (m : List (String × α)), (∀ kv ∈ m, P kv.2) →
      ∀ kv ∈ l.foldl step m, P kv.2 := by
  intro l
  induction l with
  | nil => intro m hm; simpa using hm
  | cons s rest ih =>
    intro m hm
    rw [List.foldl_cons]
    exact ih (step m s) (hstep m s hm)

theorem sum_filter_keys_eq_lookup (m : List (String × Nat)) (t : String)
    (hm : (m.map Prod.fst).Nodup) :
    ((m.filter (fun kv => kv.1 == t)).map Prod.snd).sum = (lookupAssoc m t).getD 0 := by
  induction m with
  | nil => simp [lookupAssoc]
  | cons kv rest ih =>
    obtain ⟨k, v⟩ := kv
    simp only [List.map_cons, List.nodup_cons] at hm
    by_cases hk : k = t
    · subst hk
      have hnone : lookupAssoc rest k = none :=
        (lookupAssoc_eq_none_iff rest k).mpr hm.1
      have hrest := ih hm.2
      simp [List.filter_cons, lookupAssoc, hrest, hnone]
    · have hrest := ih hm.2
      simp [List.filter_cons, lookupAssoc, hk, hrest]

/-! ## Characterization of the `JobStatus` counters -/

/-- Specification-side count: the number of status records satisfying the
state predicate whose point lookup succeeds and resolves to a job of type
`t`. -/
def resolvedCount (q : Queue) (pred : JobStatusInfo → Bool) (t : String) : Nat :=
  (q.JobStats.filter (fun stat =>
    pred stat && (q.Get stat.ID).2 && ((q.Get stat.ID).1.typeName == t))).length

theorem statusFold_lookup (q : Queue) (pred : JobStatusInfo → Bool) :
    ∀ (stats : List JobStatusInfo) (m : List (String × Nat)) (t : String),
    (lookupAssoc (stats.foldl (statusStep q pred) m) t).getD 0 =
      (lookupAssoc m t).getD 0 +
      (stats.filter (fun stat =>
        pred stat && (q.Get stat.ID).2 && ((q.Get stat.ID).1.typeName == t))).length := by
  intro stats
  induction stats with
  | nil => intro m t; simp
  | cons stat rest ih =>
    intro m t
    rw [List.foldl_cons, ih]
    by_cases hp : pred stat
    · by_cases hok : (q.Get stat.ID).2
      · by_cases ht : (q.Get stat.ID).1.typeName = t
        · have : lookupAssoc (statusStep q pred m stat) t =
              some (((lookupAssoc m t).getD 0) + 1) := by
            simp [statusStep, hp, hok, lookupAssoc_updateAssoc, ht]
          simp [this, List.filter_cons, hp, hok, ht]
          omega
        · have ht' : ¬ t = (q.Get stat.ID).1.typeName := fun hh => ht hh.symm
          have : lookupAssoc (statusStep q pred m stat) t = lookupAssoc m t := by
            simp [statusStep, hp, hok, lookupAssoc_updateAssoc, ht']
          simp [this, List.filter_cons, hp, hok, ht]
      · have : statusStep q pred m stat = m := by
          simp [statusStep, hp, hok]
        simp [this, List.filter_cons, hp, hok]
    · have : statusStep q pred m stat = m := by
        simp [statusStep, hp]
      simp [this, List.filter_cons, hp]

theorem statusCounters_lookup (q : Queue) (pred : JobStatusInfo → Bool) (t : String) :
    (lookupAssoc (statusCounters q pred) t).getD 0 = resolvedCount q pred t := by
  have := statusFold_lookup q pred q.JobStats [] t
  simpa [statusCounters, resolvedCount, lookupAssoc] using this

theorem statusCounters_keys_nodup (q : Queue) (pred : JobStatusInfo → Bool) :
    ((statusCounters q pred).map Prod.fst).Nodup := by
  refine nodup_keys_foldl _ ?_ q.JobStats [] (by simp)
  intro m s hm
  unfold statusStep
  by_cases hp : pred s
  · by_cases hok : (q.Get s.ID).2
    · simpa [hp, hok] using nodup_keys_updateAssoc m (q.Get s.ID).1.typeName 0 _ hm
    · simpa [hp, hok] using hm
  · simpa [hp] using hm

theorem sum_filter_counters (m : List (String × Nat)) (t : String)
    (hm : (m.map Prod.fst).Nodup) :
    (((m.map (fun kv => ({ ID := kv.1, Count := kv.2 } : JobCounters))).filter
        (fun c => c.ID == t)).map JobCounters.Count).sum =
      (lookupAssoc m t).getD 0 := by
  rw [List.filter_map, List.map_map]
  exact sum_filter_keys_eq_lookup m t hm

/-- C4: for `JobStatus(Stale)`, the report is rendered from the stale
counters with `Filter = Stale`; type keys are not duplicated (one counter
per `typeName`); and, for every type `t`, the total count reported for `t`
equals the number of status records satisfying
`!completed && inProgress && (now - modificationTime) > lockTimeout`
whose point lookup succeeds and resolves to a job of type `t` — so a job is
counted if and only if its record satisfies the staleness predicate and the
lookup succeeds. -/
theorem JobStatus_stale_characterization (q : Queue) (now lockTimeout : Int) :
    JobStatus q now lockTimeout Stale =
      .ok { Filter := Stale,
            Stats := (statusCounters q (stalePred now lockTimeout)).map
              (fun kv => { ID := kv.1, Count := kv.2 }) } ∧
    ((statusCounters q (stalePred now lockTimeout)).map Prod.fst).Nodup ∧
    ∀ t, ((((statusCounters q (stalePred now lockTimeout)).map
          (fun kv => ({ ID := kv.1, Count := kv.2 } : JobCounters))).filter
          (fun c => c.ID == t)).map JobCounters.Count).sum =
        resolvedCount q (stalePred now lockTimeout) t := by
  refine ⟨?_, statusCounters_keys_nodup q _, ?_⟩
  · rfl
  · intro t
    rw [sum_filter_counters _ _ (statusCounters_keys_nodup q _)]
    exact statusCounters_lookup q _ t

/-! ## Concrete inputs for counterexamples and witnesses -/

/-- The zero job handle (what the model's `Get` returns alongside a `false`
found flag). -/
def zeroJob : Job :=
  { typeName := ""
    timeInfo := { Created := 0, Start := 0, End := 0 }
    status := { ID := "", Completed := false, InProgress := false,
                ModificationTime := 0, ErrorCount := 0, Errors := [] } }

/-- An in-progress, not-completed status record with identifier `j1`. -/
def c1Stat : JobStatusInfo :=
  { ID := "j1", Completed := false, InProgress := true,
    ModificationTime := 0, ErrorCount := 0, Errors := [] }

/-- The job `j1` resolves to: type `B`. -/
def c1Job : Job :=
  { typeName := "B", timeInfo := { Created := 0, Start := 0, End := 0 },
    status := c1Stat }

/-- A queue with one in-progress record whose lookup succeeds and resolves
to type `B`; every other lookup fails. -/
def c1Queue : Queue :=
  { JobStats := [c1Stat], Results := [],
    Get := fun id => if id = "j1" then (c1Job, true) else (zeroJob, false) }

/-- A not-completed status record with identifier `j2`. -/
def c2Stat : JobStatusInfo :=
  { ID := "j2", Completed := false, InProgress := true,
    ModificationTime := 0, ErrorCount := 0, Errors := [] }

/-- A queue with one not-completed record whose point lookup fails. -/
def c2Queue : Queue :=
  { JobStats := [c2Stat], Results := [], Get := fun _ => (zeroJob, false) }

/-- C1 (failing input, `JobIDsByState`): the record `j1` is in progress, its
point lookup succeeds and resolves to a job of type `B`, yet
`JobIDsByState` with the non-empty type restriction `A` still includes `j1`
in the report — the source only skips a record when the lookup *fails* and
the handle's type differs, so a successful lookup with a mismatched type is
included, contradicting the claim that an identifier is included only if
the resolved type equals `jobType`. -/
theorem JobIDsByState_includes_mismatched_type :
    (c1Queue.Get "j1").2 = true ∧
    (c1Queue.Get "j1").1.typeName = "B" ∧
    JobIDsByState c1Queue 0 0 "A" InProgress =
      .ok { Filter := InProgress, JobType := "A", IDs := ["j1"] } := by
  refine ⟨rfl, rfl, rfl⟩

/-- C2 (failing input, `CompleteJobsByType`): the record `j2` is not
completed and its point lookup fails, yet `queue.Complete` is invoked on the
absent handle (found flag `false`), because the source only skips when
`ok && job.Type().Name != jobType` — contradicting the claim that
completion is never invoked on an absent handle.  The returned error is
still `none`. -/
theorem CompleteJobsByType_invokes_on_absent_handle :
    (c2Queue.Get "j2").2 = false ∧
    CompleteJobsByType c2Queue "A" = ([(zeroJob, false)], none) := by
  refine ⟨rfl, rfl⟩

/-- C7: `CompleteJob` on an identifier whose lookup fails returns the
not-found error and invokes completion on nothing; on an identifier whose
lookup succeeds it invokes completion exactly once, on the resolved handle,
and returns no error (the completion operation returns nothing in Go, so
there is no outcome that could surface). -/
theorem CompleteJob_spec (q : Queue) (name : String) :
    ((q.Get name).2 = false →
      CompleteJob q name =
        ([], some (.notFound ("cannot recover job with name " ++ name)))) ∧
    ((q.Get name).2 = true →
      CompleteJob q name = ([(q.Get name).1], none)) := by
  constructor
  · intro h
    simp [CompleteJob, h]
  · intro h
    simp [CompleteJob, h]

/-- Witness for C7 at a concrete queue: the lookup for `nope` fails and
yields the not-found error with no invocation; the lookup for `j1` succeeds
and yields exactly one invocation on the resolved handle and no error. -/
theorem CompleteJob_spec_witness :
    (c1Queue.Get "nope").2 = false ∧
    CompleteJob c1Queue "nope" =
      ([], some (.notFound "cannot recover job with name nope")) ∧
    (c1Queue.Get "j1").2 = true ∧
    CompleteJob c1Queue "j1" = ([c1Job], none) := by
  refine ⟨rfl, (CompleteJob_spec c1Queue "nope").1 rfl, rfl,
    (CompleteJob_spec c1Queue "j1").2 rfl⟩

/-! ## Filter validation lemmas -/

theorem counterValidate_eq_none_iff (f : CounterFilter) :
    CounterFilter.Validate f = none ↔ (f = InProgress ∨ f = Pending ∨ f = Stale) := by
  unfold CounterFilter.Validate
  by_cases h : (f = InProgress ∨ f = Pending ∨ f = Stale) <;> simp [h]

theorem runtimeValidate_eq_none_iff (f : RuntimeFilter) :
    RuntimeFilter.Validate f = none ↔ (f = Duration ∨ f = Latency ∨ f = Running) := by
  unfold RuntimeFilter.Validate
  by_cases h : (f = Duration ∨ f = Latency ∨ f = Running) <;> simp [h]

theorem errorValidate_eq_none_iff (f : ErrorFilter) :
    ErrorFilter.Validate f = none ↔ (f = UniqueErrors ∨ f = AllErrors ∨ f = StatsOnly) := by
  unfold ErrorFilter.Validate
  by_cases h : (f = UniqueErrors ∨ f = AllErrors ∨ f = StatsOnly) <;> simp [h]

theorem counterValidate_some_validation (f : CounterFilter) (e : MgmtError)
    (h : CounterFilter.Validate f = some e) : ∃ msg, e = .validation msg := by
  unfold CounterFilter.Validate at h
  by_cases hc : (f = InProgress ∨ f = Pending ∨ f = Stale)
  · simp [hc] at h
  · simp [hc] at h
    exact ⟨_, h.symm⟩

theorem runtimeValidate_some_validation (f : RuntimeFilter) (e : MgmtError)
    (h : RuntimeFilter.Validate f = some e) : ∃ msg, e = .validation msg := by
  unfold RuntimeFilter.Validate at h
  by_cases hc : (f = Duration ∨ f = Latency ∨ f = Running)
  · simp [hc] at h
  · simp [hc] at h
    exact ⟨_, h.symm⟩

theorem errorValidate_some_validation (f : ErrorFilter) (e : MgmtError)
    (h : ErrorFilter.Validate f = some e) : ∃ msg, e = .validation msg := by
  unfold ErrorFilter.Validate at h
  by_cases hc : (f = UniqueErrors ∨ f = AllErrors ∨ f = StatsOnly)
  · simp [hc] at h
  · simp [hc] at h
    exact ⟨_, h.symm⟩

/-! ## Branch equations for the windowed operations -/

theorem RecentTiming_duration_eq (q : Queue) (now window : Int) :
    RecentTiming q now window Duration =
      if window ≤ second then
        .error (.validation "must specify windows greater than one second")
      else .ok { Filter := Duration, Period := window,
                 Stats := renderRuntimes (durationCounters q now window) } := rfl

theorem RecentTiming_latency_eq (q : Queue) (now window : Int) :
    RecentTiming q now window Latency =
      if window ≤ second then
        .error (.validation "must specify windows greater than one second")
      else .ok { Filter := Latency, Period := window,
                 Stats := renderRuntimes (latencyCounters q now window) } := rfl

theorem RecentTiming_running_eq (q : Queue) (now window : Int) :
    RecentTiming q now window Running =
      if window ≤ second then
        .error (.validation "must specify windows greater than one second")
      else .ok { Filter := Running, Period := window,
                 Stats := renderRuntimes (runningCounters q now) } := rfl

theorem RecentErrors_unique_eq (q : Queue) (now window : Int) :
    RecentErrors q now window UniqueErrors =
      if window ≤ second then
        .error (.validation "must specify windows greater than one second")
      else .ok { Period := window, FilteredByType := false,
                 Data := renderErrorReports (dedupErrors (errorsCollector q now window)) } := rfl

theorem RecentErrors_all_eq (q : Queue) (now window : Int) :
    RecentErrors q now window AllErrors =
      if window ≤ second then
        .error (.validation "must specify windows greater than one second")
      else .ok { Period := window, FilteredByType := false,
                 Data := renderErrorReports (errorsCollector q now window) } := rfl

theorem RecentErrors_stats_eq (q : Queue) (now window : Int) :
    RecentErrors q now window StatsOnly =
      if window ≤ second then
        .error (.validation "must specify windows greater than one second")
      else .ok { Period := window, FilteredByType := false,
                 Data := renderErrorReports (statsOnlyCollector q now window) } := rfl

theorem RecentJobErrors_unique_eq (q : Queue) (jobType : String) (now window : Int) :
    RecentJobErrors q jobType now window UniqueErrors =
      if window ≤ second then
        .error (.validation "must specify windows greater than one second")
      else .ok { Period := window, FilteredByType := true,
                 Data := renderErrorReports (dedupErrors (jobErrorsCollector q jobType now window)) } := rfl

theorem RecentJobErrors_all_eq (q : Queue) (jobType : String) (now window : Int) :
    RecentJobErrors q jobType now window AllErrors =
      if window ≤ second then
        .error (.validation "must specify windows greater than one second")
      else .ok { Period := window, FilteredByType := true,
                 Data := renderErrorReports (jobErrorsCollector q jobType now window) } := rfl

theorem RecentJobErrors_stats_eq (q : Queue) (jobType : String) (now window : Int) :
    RecentJobErrors q jobType now window StatsOnly =
      if window ≤ second then
        .error (.validation "must specify windows greater than one second")
      else .ok { Period := window, FilteredByType := true,
                 Data := renderErrorReports (jobStatsOnlyCollector q jobType now window) } := rfl

/-- C9: for every filter accepted by validation, `JobStatus` and
`JobIDsByState` return a report whose `Filter` field is the filter value
verbatim, and any report returned by `RecentTiming` carries its filter
verbatim; for every rejected (non-enumerated) filter value, each of the
three operations returns the `ValidationError` produced by validation and
no report. -/
theorem report_filter_field_spec (q : Queue) (now lockTimeout window : Int)
    (jobType : String) (cf : CounterFilter) (rf : RuntimeFilter) :
    (CounterFilter.Validate cf = none →
      (∃ r, JobStatus q now lockTimeout cf = .ok r ∧ r.Filter = cf) ∧
      (∃ r, JobIDsByState q now lockTimeout jobType cf = .ok r ∧ r.Filter = cf)) ∧
    (∀ r, RecentTiming q now window rf = .ok r → r.Filter = rf) ∧
    (∀ e, CounterFilter.Validate cf = some e →
      JobStatus q now lockTimeout cf = .error e ∧
      JobIDsByState q now lockTimeout jobType cf = .error e ∧
      ∃ msg, e = .validation msg) ∧
    (∀ e, RuntimeFilter.Validate rf = some e →
      RecentTiming q now window rf = .error e ∧ ∃ msg, e = .validation msg) := by
  refine ⟨?_, ?_, ?_, ?_⟩
  · intro hv
    constructor
    · exact ⟨_, by unfold JobStatus; rw [hv], rfl⟩
    · rcases (counterValidate_eq_none_iff cf).mp hv with h | h | h <;> subst h
      · exact ⟨_, by unfold JobIDsByState; rw [hv]; exact rfl, rfl⟩
      · exact ⟨_, by unfold JobIDsByState; rw [hv]; exact rfl, rfl⟩
      · exact ⟨_, by unfold JobIDsByState; rw [hv]; exact rfl, rfl⟩
  · intro r hr
    cases hv : RuntimeFilter.Validate rf with
    | some e => simp [RecentTiming, hv] at hr
    | none =>
      by_cases hw : window ≤ second
      · rcases (runtimeValidate_eq_none_iff rf).mp hv with h | h | h <;> subst h
        · rw [RecentTiming_duration_eq, if_pos hw] at hr
          exact absurd hr (by simp)
        · rw [RecentTiming_latency_eq, if_pos hw] at hr
          exact absurd hr (by simp)
        · rw [RecentTiming_running_eq, if_pos hw] at hr
          exact absurd hr (by simp)
      · rcases (runtimeValidate_eq_none_iff rf).mp hv with h | h | h <;> subst h
        · rw [RecentTiming_duration_eq, if_neg hw] at hr
          injection hr with h2
          rw [← h2]
        · rw [RecentTiming_latency_eq, if_neg hw] at hr
          injection hr with h2
          rw [← h2]
        · rw [RecentTiming_running_eq, if_neg hw] at hr
          injection hr with h2
          rw [← h2]
  · intro e he
    refine ⟨by unfold JobStatus; rw [he], by unfold JobIDsByState; rw [he],
      counterValidate_some_validation cf e he⟩
  · intro e he
    exact ⟨by unfold RecentTiming; rw [he], runtimeValidate_some_validation rf e he⟩

/-- Witness for C9: at a concrete queue, the valid filter `InProgress`
yields reports carrying it verbatim from `JobStatus` and `JobIDsByState`, a
successful `RecentTiming` report carries `Latency` verbatim, and the
non-enumerated filter value `bogus` yields a `ValidationError` from all
three operations. -/
theorem report_filter_field_spec_witness :
    (∃ r, JobStatus c1Queue 0 0 InProgress = .ok r ∧ r.Filter = InProgress) ∧
    (∃ r, JobIDsByState c1Queue 0 0 "" InProgress = .ok r ∧ r.Filter = InProgress) ∧
    (∀ r, RecentTiming c1Queue 0 2000000000 Latency = .ok r → r.Filter = Latency) ∧
    JobStatus c1Queue 0 0 "bogus" = .error (.validation "invalid counter filter") ∧
    JobIDsByState c1Queue 0 0 "" "bogus" = .error (.validation "invalid counter filter") ∧
    RecentTiming c1Queue 0 2000000000 "bogus" = .error (.validation "invalid runtime filter") := by
  have h := report_filter_field_spec c1Queue 0 0 2000000000 "" InProgress Latency
  have hbogus := report_filter_field_spec c1Queue 0 0 2000000000 "" "bogus" "bogus"
  refine ⟨(h.1 rfl).1, (h.1 rfl).2, h.2.1, ?_, ?_, ?_⟩
  · exact (hbogus.2.2.1 (.validation "invalid counter filter") rfl).1
  · exact (hbogus.2.2.1 (.validation "invalid counter filter") rfl).2.1
  · exact (hbogus.2.2.2 (.validation "invalid runtime filter") rfl).1

/-- C5: with any filter accepted by validation, `RecentTiming`,
`RecentErrors` and `RecentJobErrors` reject `window <= 1s` with a
`ValidationError` that does not depend on the queue (the stream is never
consulted — the same error is returned for every queue), and with any
window strictly greater than one second they pass window validation and
return a report. -/
theorem window_validation_spec (q : Queue) (now window : Int) (jobType : String)
    (rf : RuntimeFilter) (ef : ErrorFilter) :
    (RuntimeFilter.Validate rf = none → window ≤ second →
      RecentTiming q now window rf =
        .error (.validation "must specify windows greater than one second")) ∧
    (ErrorFilter.Validate ef = none → window ≤ second →
      RecentErrors q now window ef =
        .error (.validation "must specify windows greater than one second") ∧
      RecentJobErrors q jobType now window ef =
        .error (.validation "must specify windows greater than one second")) ∧
    (RuntimeFilter.Validate rf = none → second < window →
      ∃ r, RecentTiming q now window rf = .ok r) ∧
    (ErrorFilter.Validate ef = none → second < window →
      (∃ r, RecentErrors q now window ef = .ok r) ∧
      (∃ r, RecentJobErrors q jobType now window ef = .ok r)) := by
  refine ⟨?_, ?_, ?_, ?_⟩
  · intro hv hw
    rcases (runtimeValidate_eq_none_iff rf).mp hv with h | h | h <;> subst h
    · rw [RecentTiming_duration_eq, if_pos hw]
    · rw [RecentTiming_latency_eq, if_pos hw]
    · rw [RecentTiming_running_eq, if_pos hw]
  · intro hv hw
    rcases (errorValidate_eq_none_iff ef).mp hv with h | h | h <;> subst h
    · rw [RecentErrors_unique_eq, RecentJobErrors_unique_eq, if_pos hw, if_pos hw]
      exact ⟨rfl, rfl⟩
    · rw [RecentErrors_all_eq, RecentJobErrors_all_eq, if_pos hw, if_pos hw]
      exact ⟨rfl, rfl⟩
    · rw [RecentErrors_stats_eq, RecentJobErrors_stats_eq, if_pos hw, if_pos hw]
      exact ⟨rfl, rfl⟩
  · intro hv hw
    have hw' : ¬ window ≤ second := not_le.mpr hw
    rcases (runtimeValidate_eq_none_iff rf).mp hv with h | h | h <;> subst h
    · exact ⟨_, by rw [RecentTiming_duration_eq, if_neg hw']⟩
    · exact ⟨_, by rw [RecentTiming_latency_eq, if_neg hw']⟩
    · exact ⟨_, by rw [RecentTiming_running_eq, if_neg hw']⟩
  · intro hv hw
    have hw' : ¬ window ≤ second := not_le.mpr hw
    rcases (errorValidate_eq_none_iff ef).mp hv with h | h | h <;> subst h
    · exact ⟨⟨_, by rw [RecentErrors_unique_eq, if_neg hw']⟩,
        ⟨_, by rw [RecentJobErrors_unique_eq, if_neg hw']⟩⟩
    · exact ⟨⟨_, by rw [RecentErrors_all_eq, if_neg hw']⟩,
        ⟨_, by rw [RecentJobErrors_all_eq, if_neg hw']⟩⟩
    · exact ⟨⟨_, by rw [RecentErrors_stats_eq, if_neg hw']⟩,
        ⟨_, by rw [RecentJobErrors_stats_eq, if_neg hw']⟩⟩

/-- Witness for C5 at a concrete queue: `Latency`/`AllErrors` are valid
filters; the window of exactly one second is rejected by all three
operations, and the window of one second plus one nanosecond is accepted. -/
theorem window_validation_spec_witness :
    RuntimeFilter.Validate Latency = none ∧
    ErrorFilter.Validate AllErrors = none ∧
    (1000000000 : Int) ≤ second ∧
    second < (1000000001 : Int) ∧
    RecentTiming c1Queue 0 1000000000 Latency =
      .error (.validation "must specify windows greater than one second") ∧
    RecentErrors c1Queue 0 1000000000 AllErrors =
      .error (.validation "must specify windows greater than one second") ∧
    RecentJobErrors c1Queue "A" 0 1000000000 AllErrors =
      .error (.validation "must specify windows greater than one second") ∧
    (∃ r, RecentTiming c1Queue 0 1000000001 Latency = .ok r) ∧
    (∃ r, RecentErrors c1Queue 0 1000000001 AllErrors = .ok r) ∧
    (∃ r, RecentJobErrors c1Queue "A" 0 1000000001 AllErrors = .ok r) := by
  have h := window_validation_spec c1Queue 0 1000000000 "A" Latency AllErrors
  have h2 := window_validation_spec c1Queue 0 1000000001 "A" Latency AllErrors
  refine ⟨rfl, rfl, by decide, by decide, h.1 rfl (by decide),
    (h.2.1 rfl (by decide)).1, (h.2.1 rfl (by decide)).2,
    h2.2.2.1 rfl (by decide), (h2.2.2.2 rfl (by decide)).1,
    (h2.2.2.2 rfl (by decide)).2⟩

/-! ## Characterization of the `Latency` buckets (C8) -/

/-- Specification-side description of the `Latency` bucket of type `t`: one
entry `now - timeInfo.created` for each status record, in stream order,
whose lookup succeeds and resolves to type `t` and which satisfies the
literal predicate `!completed && (now - timeInfo.end) < window`. -/
def latencySpecBucket (q : Queue) (now window : Int) (t : String) : List Int :=
  q.JobStats.filterMap (fun stat =>
    if (q.Get stat.ID).2 &&
        (!stat.Completed && decide (now - (q.Get stat.ID).1.timeInfo.End < window)) &&
        ((q.Get stat.ID).1.typeName == t)
    then some (now - (q.Get stat.ID).1.timeInfo.Created) else none)

theorem latencyFold_lookup (q : Queue) (now window : Int) :
    ∀ (stats : List JobStatusInfo) (m : List (String × List Int)) (t : String),
    (lookupAssoc (stats.foldl (latencyStep q now window) m) t).getD [] =
      (lookupAssoc m t).getD [] ++
      (stats.filterMap (fun stat =>
        if (q.Get stat.ID).2 &&
            (!stat.Completed && decide (now - (q.Get stat.ID).1.timeInfo.End < window)) &&
            ((q.Get stat.ID).1.typeName == t)
        then some (now - (q.Get stat.ID).1.timeInfo.Created) else none)) := by
  intro stats
  induction stats with
  | nil => intro m t; simp
  | cons stat rest ih =>
    intro m t
    rw [List.foldl_cons, ih]
    cases hok : (q.Get stat.ID).2 with
    | false =>
      have hstep : latencyStep q now window m stat = m := by
        simp [latencyStep, hok]
      simp [hstep, List.filterMap_cons, hok]
    | true =>
      cases hcm : stat.Completed with
      | true =>
        have hstep : latencyStep q now window m stat = m := by
          simp [latencyStep, hok, hcm]
        simp [hstep, List.filterMap_cons, hok, hcm]
      | false =>
        by_cases hwnd : now - (q.Get stat.ID).1.timeInfo.End < window
        · by_cases ht : (q.Get stat.ID).1.typeName = t
          · have hstep : lookupAssoc (latencyStep q now window m stat) t =
                some (((lookupAssoc m t).getD []) ++
                  [now - (q.Get stat.ID).1.timeInfo.Created]) := by
              simp [latencyStep, hok, hcm, hwnd, lookupAssoc_updateAssoc, ht]
            simp [hstep, List.filterMap_cons, hok, hcm, hwnd, ht]
          · have ht2 : ¬ t = (q.Get stat.ID).1.typeName := fun hh => ht hh.symm
            have hstep : lookupAssoc (latencyStep q now window m stat) t =
                lookupAssoc m t := by
              simp [latencyStep, hok, hcm, hwnd, lookupAssoc_updateAssoc, ht2]
            simp [hstep, List.filterMap_cons, hok, hcm, hwnd, ht]
        · have hstep : latencyStep q now window m stat = m := by
            simp [latencyStep, hok, hcm, hwnd]
          simp [hstep, List.filterMap_cons, hok, hcm, hwnd]

/-- C8: for `RecentTiming` with the `Latency` filter, the bucket of every
type `t` holds exactly one contribution `now - timeInfo.created` for each
status record whose lookup succeeds, resolves to type `t`, and satisfies
the literal predicate `!completed && (now - timeInfo.end) < window` (the
predicate reads `timeInfo.end` of a non-completed job, as the source does);
records whose lookup fails are skipped; and the `Latency` report is
rendered from exactly these buckets once `window` passes validation. -/
theorem RecentTiming_latency_characterization (q : Queue) (now window : Int) :
    (∀ t, (lookupAssoc (latencyCounters q now window) t).getD [] =
      latencySpecBucket q now window t) ∧
    RecentTiming q now window Latency =
      (if window ≤ second then
        .error (.validation "must specify windows greater than one second")
      else .ok { Filter := Latency, Period := window,
                 Stats := renderRuntimes (latencyCounters q now window) }) := by
  constructor
  · intro t
    have := latencyFold_lookup q now window q.JobStats [] t
    simpa [latencyCounters, latencySpecBucket, lookupAssoc] using this
  · exact RecentTiming_latency_eq q now window

/-! ## Characterization of the error collectors (C3, C6, C10) -/

/-- Specification-side matching predicate of the `RecentErrors` accumulation
loops for the bucket of type `t`: the record is completed with a positive
error count, its lookup succeeds and resolves to type `t`, and the job
finished within the window (`!(now - timeInfo.end > window)`). -/
def errMatches (q : Queue) (now window : Int) (t : String) (stat : JobStatusInfo) : Bool :=
  (stat.Completed && decide (0 < stat.ErrorCount)) && (q.Get stat.ID).2 &&
    !decide (now - (q.Get stat.ID).1.timeInfo.End > window) &&
    ((q.Get stat.ID).1.typeName == t)

theorem errorsFold_lookup (q : Queue) (now window : Int) :
    ∀ (stats : List JobStatusInfo) (m : List (String × JobErrorsForType)) (t : String),
    ((lookupAssoc (stats.foldl (errorsStep q now window) m) t).getD zeroJEFT).Count =
        ((lookupAssoc m t).getD zeroJEFT).Count +
        (stats.filter (errMatches q now window t)).length ∧
    ((lookupAssoc (stats.foldl (errorsStep q now window) m) t).getD zeroJEFT).Total =
        ((lookupAssoc m t).getD zeroJEFT).Total +
        ((stats.filter (errMatches q now window t)).map JobStatusInfo.ErrorCount).sum ∧
    ((lookupAssoc (stats.foldl (errorsStep q now window) m) t).getD zeroJEFT).Errors =
        ((lookupAssoc m t).getD zeroJEFT).Errors ++
        ((stats.filter (errMatches q now window t)).map JobStatusInfo.Errors).flatten := by
  intro stats
  induction stats with
  | nil => intro m t; simp
  | cons stat rest ih =>
    intro m t
    rw [List.foldl_cons]
    cases hcm : stat.Completed with
    | false =>
      have hstep : errorsStep q now window m stat = m := by
        simp [errorsStep, hcm]
      rw [hstep]
      have h := ih m t
      simp [List.filter_cons, errMatches, hcm, h.1, h.2.1, h.2.2]
    | true =>
      by_cases hec : 0 < stat.ErrorCount
      · cases hok : (q.Get stat.ID).2 with
        | false =>
          have hstep : errorsStep q now window m stat = m := by
            simp [errorsStep, hcm, hec, hok]
          rw [hstep]
          have h := ih m t
          simp [List.filter_cons, errMatches, hcm, hec, hok, h.1, h.2.1, h.2.2]
        | true =>
          by_cases hw : now - (q.Get stat.ID).1.timeInfo.End > window
          · have hstep : errorsStep q now window m stat = m := by
              simp [errorsStep, hcm, hec, hok, hw]
            rw [hstep]
            have h := ih m t
            simp [List.filter_cons, errMatches, hcm, hec, hok, hw, h.1, h.2.1, h.2.2]
          · by_cases ht : (q.Get stat.ID).1.typeName = t
            · have hstep : lookupAssoc (errorsStep q now window m stat) t =
                  some { (lookupAssoc m t).getD zeroJEFT with
                         Count := ((lookupAssoc m t).getD zeroJEFT).Count + 1
                         Total := ((lookupAssoc m t).getD zeroJEFT).Total + stat.ErrorCount
                         Errors := ((lookupAssoc m t).getD zeroJEFT).Errors ++ stat.Errors } := by
                simp [errorsStep, hcm, hec, hok, hw, lookupAssoc_updateAssoc, ht]
              have h := ih (errorsStep q now window m stat) t
              rw [hstep] at h
              refine ⟨?_, ?_, ?_⟩
              · rw [h.1]
                simp [List.filter_cons, errMatches, hcm, hec, hok, hw, ht]
                omega
              · rw [h.2.1]
                simp [List.filter_cons, errMatches, hcm, hec, hok, hw, ht]
                omega
              · rw [h.2.2]
                simp [List.filter_cons, errMatches, hcm, hec, hok, hw, ht, List.append_assoc]
            · have ht2 : ¬ t = (q.Get stat.ID).1.typeName := fun hh => ht hh.symm
              have hstep : lookupAssoc (errorsStep q now window m stat) t =
                  lookupAssoc m t := by
                simp [errorsStep, hcm, hec, hok, hw, lookupAssoc_updateAssoc, ht2]
              have h := ih (errorsStep q now window m stat) t
              rw [hstep] at h
              simp [List.filter_cons, errMatches, hcm, hec, hok, hw, ht, h.1, h.2.1, h.2.2]
      · have hstep : errorsStep q now window m stat = m := by
          simp [errorsStep, hcm, hec]
        rw [hstep]
        have h := ih m t
        simp [List.filter_cons, errMatches, hcm, hec, h.1, h.2.1, h.2.2]

/-! ## Bucket non-triviality invariants -/

theorem durationCounters_nonempty (q : Queue) (now window : Int) :
    ∀ kv ∈ durationCounters q now window, kv.2 ≠ [] := by
  unfold durationCounters
  refine mem_foldl_prop (fun v => v ≠ []) (durationStep now window) ?_ q.Results [] (by simp)
  intro m job hm
  unfold durationStep
  by_cases hc : (job.status.Completed && decide (now - job.timeInfo.End < window)) = true
  · simpa [hc] using mem_updateAssoc_prop _ m job.typeName [] _ (by simp) hm
  · simpa [hc] using hm

theorem latencyCounters_nonempty (q : Queue) (now window : Int) :
    ∀ kv ∈ latencyCounters q now window, kv.2 ≠ [] := by
  unfold latencyCounters
  refine mem_foldl_prop (fun v => v ≠ []) (latencyStep q now window) ?_ q.JobStats [] (by simp)
  intro m s hm
  unfold latencyStep
  cases hok : (q.Get s.ID).2 with
  | false => simpa [hok] using hm
  | true =>
    by_cases hc : (!s.Completed && decide (now - (q.Get s.ID).1.timeInfo.End < window)) = true
    · simpa [hok, hc] using
        mem_updateAssoc_prop _ m (q.Get s.ID).1.typeName [] _ (by simp) hm
    · simpa [hok, hc] using hm

theorem runningCounters_nonempty (q : Queue) (now : Int) :
    ∀ kv ∈ runningCounters q now, kv.2 ≠ [] := by
  unfold runningCounters
  refine mem_foldl_prop (fun v => v ≠ []) (runningStep q now) ?_ q.JobStats [] (by simp)
  intro m s hm
  unfold runningStep
  by_cases hc : (!s.Completed && s.InProgress) = true
  · cases hok : (q.Get s.ID).2 with
    | false => simpa [hc, hok] using hm
    | true =>
      simpa [hc, hok] using
        mem_updateAssoc_prop _ m (q.Get s.ID).1.typeName [] _ (by simp) hm
  · simpa [hc] using hm

theorem errorsCollector_count_pos (q : Queue) (now window : Int) :
    ∀ kv ∈ errorsCollector q now window, 0 < kv.2.Count := by
  unfold errorsCollector
  refine mem_foldl_prop (fun v => 0 < v.Count) (errorsStep q now window) ?_ q.JobStats [] (by simp)
  intro m s hm
  unfold errorsStep
  by_cases hc : (s.Completed && decide (0 < s.ErrorCount)) = true
  · cases hok : (q.Get s.ID).2 with
    | false => simpa [hc, hok] using hm
    | true =>
      by_cases hw : (decide (now - (q.Get s.ID).1.timeInfo.End > window)) = true
      · simpa [hc, hok, hw] using hm
      · simpa [hc, hok, hw] using
          mem_updateAssoc_prop _ m (q.Get s.ID).1.typeName zeroJEFT _ (by simp) hm
  · simpa [hc] using hm

theorem statsOnlyCollector_count_pos (q : Queue) (now window : Int) :
    ∀ kv ∈ statsOnlyCollector q now window, 0 < kv.2.Count := by
  unfold statsOnlyCollector
  refine mem_foldl_prop (fun v => 0 < v.Count) (statsOnlyStep q now window) ?_ q.JobStats [] (by simp)
  intro m s hm
  unfold statsOnlyStep
  by_cases hc : (s.Completed && decide (0 < s.ErrorCount)) = true
  · cases hok : (q.Get s.ID).2 with
    | false => simpa [hc, hok] using hm
    | true =>
      by_cases hw : (decide (now - (q.Get s.ID).1.timeInfo.End > window)) = true
      · simpa [hc, hok, hw] using hm
      · simpa [hc, hok, hw] using
          mem_updateAssoc_prop _ m (q.Get s.ID).1.typeName zeroJEFT _ (by simp) hm
  · simpa [hc] using hm

theorem jobErrorsCollector_count_pos (q : Queue) (jobType : String) (now window : Int) :
    ∀ kv ∈ jobErrorsCollector q jobType now window, 0 < kv.2.Count := by
  unfold jobErrorsCollector
  refine mem_foldl_prop (fun v => 0 < v.Count) (jobErrorsStep q jobType now window) ?_ q.JobStats [] (by simp)
  intro m s hm
  unfold jobErrorsStep
  by_cases hc : (s.Completed && decide (0 < s.ErrorCount)) = true
  · cases hok : (q.Get s.ID).2 with
    | false => simpa [hc, hok] using hm
    | true =>
      by_cases hjt : (q.Get s.ID).1.typeName = jobType
      · by_cases hw : (decide (now - (q.Get s.ID).1.timeInfo.End > window)) = true
        · simpa [hc, hok, hjt, hw] using hm
        · simpa [hc, hok, hjt, hw] using
            mem_updateAssoc_prop _ m jobType zeroJEFT _ (by simp) hm
      · simpa [hc, hok, hjt] using hm
  · simpa [hc] using hm

theorem jobStatsOnlyCollector_count_pos (q : Queue) (jobType : String) (now window : Int) :
    ∀ kv ∈ jobStatsOnlyCollector q jobType now window, 0 < kv.2.Count := by
  unfold jobStatsOnlyCollector
  refine mem_foldl_prop (fun v => 0 < v.Count) (jobStatsOnlyStep q jobType now window) ?_ q.JobStats [] (by simp)
  intro m s hm
  unfold jobStatsOnlyStep
  by_cases hc : (s.Completed && decide (0 < s.ErrorCount)) = true
  · cases hok : (q.Get s.ID).2 with
    | false => simpa [hc, hok] using hm
    | true =>
      by_cases hjt : (q.Get s.ID).1.typeName = jobType
      · by_cases hw : (decide (now - (q.Get s.ID).1.timeInfo.End > window)) = true
        · simpa [hc, hok, hjt, hw] using hm
        · simpa [hc, hok, hjt, hw] using
            mem_updateAssoc_prop _ m jobType zeroJEFT _ (by simp) hm
      · simpa [hc, hok, hjt] using hm
  · simpa [hc] using hm

/-! ## `StatsOnly` as the error-free projection of the full collectors -/

/-- Forget the error lists of every bucket of a collector. -/
def stripErrors (m : List (String × JobErrorsForType)) :
    List (String × JobErrorsForType) :=
  m.map (fun kv => (kv.1, { kv.2 with Errors := [] }))

theorem updateAssoc_strip (m : List (String × JobErrorsForType)) (key : String)
    (f f' : JobErrorsForType → JobErrorsForType)
    (hcomm : ∀ v, f' { v with Errors := [] } = { f v with Errors := [] }) :
    updateAssoc (stripErrors m) key zeroJEFT f' =
      stripErrors (updateAssoc m key zeroJEFT f) := by
  induction m with
  | nil =>
    have h := hcomm zeroJEFT
    simp only [stripErrors, List.map_nil, updateAssoc, List.map_cons]
    rw [show f' zeroJEFT = f' { zeroJEFT with Errors := [] } from rfl, h]
  | cons kv rest ih =>
    obtain ⟨k, v⟩ := kv
    by_cases hk : k = key
    · simp only [stripErrors, List.map_cons, updateAssoc, if_pos hk]
      rw [hcomm v]
    · simp only [stripErrors, List.map_cons, updateAssoc, if_neg hk]
      exact congrArg _ (by simpa [stripErrors] using ih)

theorem statsOnlyFold_strip (q : Queue) (now window : Int) :
    ∀ (stats : List JobStatusInfo) (m : List (String × JobErrorsForType)),
    stats.foldl (statsOnlyStep q now window) (stripErrors m) =
      stripErrors (stats.foldl (errorsStep q now window) m) := by
  intro stats
  induction stats with
  | nil => intro m; rfl
  | cons stat rest ih =>
    intro m
    rw [List.foldl_cons, List.foldl_cons]
    have hstep : statsOnlyStep q now window (stripErrors m) stat =
        stripErrors (errorsStep q now window m stat) := by
      unfold statsOnlyStep errorsStep
      by_cases hc : (stat.Completed && decide (0 < stat.ErrorCount)) = true
      · cases hok : (q.Get stat.ID).2 with
        | false => simp [hc, hok]
        | true =>
          by_cases hw : (decide (now - (q.Get stat.ID).1.timeInfo.End > window)) = true
          · simp [hc, hok, hw]
          · simp only [hc, hok, hw, if_true, Bool.not_true, Bool.false_eq_true,
              if_false, Bool.not_false]
            exact updateAssoc_strip m (q.Get stat.ID).1.typeName _ _ (fun v => rfl)
      · simp [hc]
    rw [hstep, ih]

theorem statsOnlyCollector_eq_strip (q : Queue) (now window : Int) :
    statsOnlyCollector q now window = stripErrors (errorsCollector q now window) := by
  have h := statsOnlyFold_strip q now window q.JobStats []
  simpa [statsOnlyCollector, errorsCollector, stripErrors] using h

theorem jobStatsOnlyFold_strip (q : Queue) (jobType : String) (now window : Int) :
    ∀ (stats : List JobStatusInfo) (m : List (String × JobErrorsForType)),
    stats.foldl (jobStatsOnlyStep q jobType now window) (stripErrors m) =
      stripErrors (stats.foldl (jobErrorsStep q jobType now window) m) := by
  intro stats
  induction stats with
  | nil => intro m; rfl
  | cons stat rest ih =>
    intro m
    rw [List.foldl_cons, List.foldl_cons]
    have hstep : jobStatsOnlyStep q jobType now window (stripErrors m) stat =
        stripErrors (jobErrorsStep q jobType now window m stat) := by
      unfold jobStatsOnlyStep jobErrorsStep
      by_cases hc : (stat.Completed && decide (0 < stat.ErrorCount)) = true
      · cases hok : (q.Get stat.ID).2 with
        | false => simp [hc, hok]
        | true =>
          by_cases hjt : (q.Get stat.ID).1.typeName = jobType
          · by_cases hw : (decide (now - (q.Get stat.ID).1.timeInfo.End > window)) = true
            · simp [hc, hok, hjt, hw]
            · simp only [hc, hok, hjt, hw, if_true, Bool.not_true, Bool.false_eq_true,
                if_false, Bool.not_false, ne_eq, not_true_eq_false]
              exact updateAssoc_strip m jobType _ _ (fun v => rfl)
          · simp [hc, hok, hjt]
      · simp [hc]
    rw [hstep, ih]

theorem jobStatsOnlyCollector_eq_strip (q : Queue) (jobType : String) (now window : Int) :
    jobStatsOnlyCollector q jobType now window =
      stripErrors (jobErrorsCollector q jobType now window) := by
  have h := jobStatsOnlyFold_strip q jobType now window q.JobStats []
  simpa [jobStatsOnlyCollector, jobErrorsCollector, stripErrors] using h

/-- Specification-side matching predicate of the `RecentJobErrors`
accumulation loops: completed with a positive error count, lookup succeeds,
the resolved type equals `jobType`, and the job finished within the
window. -/
def jobErrMatches (q : Queue) (jobType : String) (now window : Int)
    (stat : JobStatusInfo) : Bool :=
  (stat.Completed && decide (0 < stat.ErrorCount)) && (q.Get stat.ID).2 &&
    ((q.Get stat.ID).1.typeName == jobType) &&
    !decide (now - (q.Get stat.ID).1.timeInfo.End > window)

theorem jobErrorsFold_lookup (q : Queue) (jobType : String) (now window : Int) :
    ∀ (stats : List JobStatusInfo) (m : List (String × JobErrorsForType)),
    ((lookupAssoc (stats.foldl (jobErrorsStep q jobType now window) m) jobType).getD
        zeroJEFT).Count =
        ((lookupAssoc m jobType).getD zeroJEFT).Count +
        (stats.filter (jobErrMatches q jobType now window)).length ∧
    ((lookupAssoc (stats.foldl (jobErrorsStep q jobType now window) m) jobType).getD
        zeroJEFT).Total =
        ((lookupAssoc m jobType).getD zeroJEFT).Total +
        ((stats.filter (jobErrMatches q jobType now window)).map
          JobStatusInfo.ErrorCount).sum ∧
    ((lookupAssoc (stats.foldl (jobErrorsStep q jobType now window) m) jobType).getD
        zeroJEFT).Errors =
        ((lookupAssoc m jobType).getD zeroJEFT).Errors ++
        ((stats.filter (jobErrMatches q jobType now window)).map
          JobStatusInfo.Errors).flatten := by
  intro stats
  induction stats with
  | nil => intro m; simp
  | cons stat rest ih =>
    intro m
    rw [List.foldl_cons]
    cases hcm : stat.Completed with
    | false =>
      have hstep : jobErrorsStep q jobType now window m stat = m := by
        simp [jobErrorsStep, hcm]
      rw [hstep]
      have h := ih m
      simp [List.filter_cons, jobErrMatches, hcm, h.1, h.2.1, h.2.2]
    | true =>
      by_cases hec : 0 < stat.ErrorCount
      · cases hok : (q.Get stat.ID).2 with
        | false =>
          have hstep : jobErrorsStep q jobType now window m stat = m := by
            simp [jobErrorsStep, hcm, hec, hok]
          rw [hstep]
          have h := ih m
          simp [List.filter_cons, jobErrMatches, hcm, hec, hok, h.1, h.2.1, h.2.2]
        | true =>
          by_cases hjt : (q.Get stat.ID).1.typeName = jobType
          · by_cases hw : now - (q.Get stat.ID).1.timeInfo.End > window
            · have hstep : jobErrorsStep q jobType now window m stat = m := by
                simp [jobErrorsStep, hcm, hec, hok, hjt, hw]
              rw [hstep]
              have h := ih m
              simp [List.filter_cons, jobErrMatches, hcm, hec, hok, hjt, hw,
                h.1, h.2.1, h.2.2]
            · have hstep : lookupAssoc (jobErrorsStep q jobType now window m stat) jobType =
                  some { (lookupAssoc m jobType).getD zeroJEFT with
                         Count := ((lookupAssoc m jobType).getD zeroJEFT).Count + 1
                         Total := ((lookupAssoc m jobType).getD zeroJEFT).Total +
                           stat.ErrorCount
                         Errors := ((lookupAssoc m jobType).getD zeroJEFT).Errors ++
                           stat.Errors } := by
                simp [jobErrorsStep, hcm, hec, hok, hjt, hw, lookupAssoc_updateAssoc]
              have h := ih (jobErrorsStep q jobType now window m stat)
              rw [hstep] at h
              refine ⟨?_, ?_, ?_⟩
              · rw [h.1]
                simp [List.filter_cons, jobErrMatches, hcm, hec, hok, hjt, hw]
                omega
              · rw [h.2.1]
                simp [List.filter_cons, jobErrMatches, hcm, hec, hok, hjt, hw]
                omega
              · rw [h.2.2]
                simp [List.filter_cons, jobErrMatches, hcm, hec, hok, hjt, hw,
                  List.append_assoc]
          · have hstep : jobErrorsStep q jobType now window m stat = m := by
              simp [jobErrorsStep, hcm, hec, hok, hjt]
            rw [hstep]
            have h := ih m
            simp [List.filter_cons, jobErrMatches, hcm, hec, hok, hjt, h.1, h.2.1, h.2.2]
      · have hstep : jobErrorsStep q jobType now window m stat = m := by
          simp [jobErrorsStep, hcm, hec]
        rw [hstep]
        have h := ih m
        simp [List.filter_cons, jobErrMatches, hcm, hec, h.1, h.2.1, h.2.2]

/-! ## Linking collectors to rendered reports -/

theorem lookupAssoc_of_mem_nodup {α : Type} (m : List (String × α)) (kv : String × α)
    (hm : (m.map Prod.fst).Nodup) (h : kv ∈ m) : lookupAssoc m kv.1 = some kv.2 := by
  induction m with
  | nil => cases h
  | cons hd rest ih =>
    obtain ⟨k, v⟩ := hd
    simp only [List.map_cons, List.nodup_cons] at hm
    rcases List.mem_cons.mp h with h1 | h1
    · rw [h1]
      simp [lookupAssoc]
    · have hne : ¬ k = kv.1 := by
        intro hk
        exact hm.1 (hk ▸ (List.mem_map.mpr ⟨kv, h1, rfl⟩))
      simp [lookupAssoc, hne, ih hm.2 h1]

theorem mem_updateAssoc_pair_prop {α : Type} (P : String × α → Prop)
    (m : List (String × α)) (key : String) (d : α) (f : α → α)
    (hf : ∀ v, P (key, f v)) (hm : ∀ kv ∈ m, P kv) :
    ∀ kv ∈ updateAssoc m key d f, P kv := by
  induction m with
  | nil =>
    intro kv hkv
    simp only [updateAssoc, List.mem_singleton] at hkv
    rw [hkv]
    exact hf d
  | cons hd rest ih =>
    obtain ⟨k, v⟩ := hd
    intro kv hkv
    by_cases hk : k = key
    · rw [updateAssoc, if_pos hk] at hkv
      rcases List.mem_cons.mp hkv with h | h
      · rw [h, hk]
        exact hf v
      · exact hm kv (List.mem_cons_of_mem _ h)
    · rw [updateAssoc, if_neg hk] at hkv
      rcases List.mem_cons.mp hkv with h | h
      · exact h ▸ hm (k, v) (List.mem_cons_self _ _)
      · exact ih (fun kv' h' => hm kv' (List.mem_cons_of_mem _ h')) kv h

theorem mem_pair_foldl_prop {α σ : Type} (P : String × α → Prop)
    (step : List (String × α) → σ → List (String × α))
    (hstep : ∀ m s, (∀ kv ∈ m, P kv) → ∀ kv ∈ step m s, P kv) :
    ∀ (l : List σ) (m : List (String × α)), (∀ kv ∈ m, P kv) →
      ∀ kv ∈ l.foldl step m, P kv := by
  intro l
  induction l with
  | nil => intro m hm; simpa using hm
  | cons s rest ih =>
    intro m hm
    rw [List.foldl_cons]
    exact ih (step m s) (hstep m s hm)

theorem jobErrorsCollector_keys (q : Queue) (jobType : String) (now window : Int) :
    ∀ kv ∈ jobErrorsCollector q jobType now window, kv.1 = jobType := by
  unfold jobErrorsCollector
  refine mem_pair_foldl_prop (fun kv => kv.1 = jobType)
    (jobErrorsStep q jobType now window) ?_ q.JobStats [] (by simp)
  intro m s hm
  unfold jobErrorsStep
  by_cases hc : (s.Completed && decide (0 < s.ErrorCount)) = true
  · cases hok : (q.Get s.ID).2 with
    | false => simpa [hc, hok] using hm
    | true =>
      by_cases hjt : (q.Get s.ID).1.typeName = jobType
      · by_cases hw : (decide (now - (q.Get s.ID).1.timeInfo.End > window)) = true
        · simpa [hc, hok, hjt, hw] using hm
        · simpa [hc, hok, hjt, hw] using
            mem_updateAssoc_pair_prop (fun kv => kv.1 = jobType) m jobType zeroJEFT _
              (fun v => rfl) hm
      · simpa [hc, hok, hjt] using hm
  · simpa [hc] using hm

theorem errorsCollector_keys_nodup (q : Queue) (now window : Int) :
    ((errorsCollector q now window).map Prod.fst).Nodup := by
  unfold errorsCollector
  refine nodup_keys_foldl _ ?_ q.JobStats [] (by simp)
  intro m s hm
  unfold errorsStep
  by_cases hc : (s.Completed && decide (0 < s.ErrorCount)) = true
  · cases hok : (q.Get s.ID).2 with
    | false => simpa [hc, hok] using hm
    | true =>
      by_cases hw : (decide (now - (q.Get s.ID).1.timeInfo.End > window)) = true
      · simpa [hc, hok, hw] using hm
      · simpa [hc, hok, hw] using
          nodup_keys_updateAssoc m (q.Get s.ID).1.typeName zeroJEFT _ hm
  · simpa [hc] using hm

theorem jobErrorsCollector_keys_nodup (q : Queue) (jobType : String) (now window : Int) :
    ((jobErrorsCollector q jobType now window).map Prod.fst).Nodup := by
  unfold jobErrorsCollector
  refine nodup_keys_foldl _ ?_ q.JobStats [] (by simp)
  intro m s hm
  unfold jobErrorsStep
  by_cases hc : (s.Completed && decide (0 < s.ErrorCount)) = true
  · cases hok : (q.Get s.ID).2 with
    | false => simpa [hc, hok] using hm
    | true =>
      by_cases hjt : (q.Get s.ID).1.typeName = jobType
      · by_cases hw : (decide (now - (q.Get s.ID).1.timeInfo.End > window)) = true
        · simpa [hc, hok, hjt, hw] using hm
        · simpa [hc, hok, hjt, hw] using
            nodup_keys_updateAssoc m jobType zeroJEFT _ hm
      · simpa [hc, hok, hjt] using hm
  · simpa [hc] using hm

theorem mem_renderErrorReports (c : List (String × JobErrorsForType))
    (b : JobErrorsForType) (hb : b ∈ renderErrorReports c) :
    ∃ kv ∈ c, b = { kv.2 with ID := kv.1, Average := kv.2.Total / kv.2.Count } := by
  simp only [renderErrorReports, List.mem_map] at hb
  obtain ⟨kv, hkv, hb⟩ := hb
  exact ⟨kv, hkv, hb.symm⟩

theorem mem_dedupErrors (c : List (String × JobErrorsForType))
    (kv : String × JobErrorsForType) (h : kv ∈ dedupErrors c) :
    ∃ kv2 ∈ c, kv = (kv2.1, { kv2.2 with Errors := kv2.2.Errors.dedup }) := by
  simp only [dedupErrors, List.mem_map] at h
  obtain ⟨kv2, hkv2, h⟩ := h
  exact ⟨kv2, hkv2, h.symm⟩

theorem mem_stripErrors (c : List (String × JobErrorsForType))
    (kv : String × JobErrorsForType) (h : kv ∈ stripErrors c) :
    ∃ kv2 ∈ c, kv = (kv2.1, { kv2.2 with Errors := [] }) := by
  simp only [stripErrors, List.mem_map] at h
  obtain ⟨kv2, hkv2, h⟩ := h
  exact ⟨kv2, hkv2, h.symm⟩

theorem render_strip (c : List (String × JobErrorsForType)) :
    renderErrorReports (stripErrors c) =
      (renderErrorReports c).map (fun b => { b with Errors := [] }) := by
  simp only [renderErrorReports, stripErrors, List.map_map]
  rfl

/-- C10: every per-type bucket present at the render step of the error and
timing aggregators was created by at least one matching record: every error
bucket of every accumulation mode (both entry points, before and after the
`UniqueErrors` post-pass) has `Count ≥ 1`, and every timing bucket holds a
non-empty duration list — so the averaging divisions `Total / Count` and
`total / len(durations)` never divide by zero even though no explicit guard
precedes them. -/
theorem render_buckets_nonzero (q : Queue) (jobType : String) (now window : Int) :
    (∀ kv ∈ errorsCollector q now window, 0 < kv.2.Count) ∧
    (∀ kv ∈ statsOnlyCollector q now window, 0 < kv.2.Count) ∧
    (∀ kv ∈ jobErrorsCollector q jobType now window, 0 < kv.2.Count) ∧
    (∀ kv ∈ jobStatsOnlyCollector q jobType now window, 0 < kv.2.Count) ∧
    (∀ kv ∈ dedupErrors (errorsCollector q now window), 0 < kv.2.Count) ∧
    (∀ kv ∈ dedupErrors (jobErrorsCollector q jobType now window), 0 < kv.2.Count) ∧
    (∀ kv ∈ durationCounters q now window, 1 ≤ kv.2.length) ∧
    (∀ kv ∈ latencyCounters q now window, 1 ≤ kv.2.length) ∧
    (∀ kv ∈ runningCounters q now, 1 ≤ kv.2.length) := by
  refine ⟨errorsCollector_count_pos q now window,
    statsOnlyCollector_count_pos q now window,
    jobErrorsCollector_count_pos q jobType now window,
    jobStatsOnlyCollector_count_pos q jobType now window, ?_, ?_, ?_, ?_, ?_⟩
  · intro kv hkv
    obtain ⟨kv2, hkv2, heq⟩ := mem_dedupErrors _ kv hkv
    rw [heq]
    exact errorsCollector_count_pos q now window kv2 hkv2
  · intro kv hkv
    obtain ⟨kv2, hkv2, heq⟩ := mem_dedupErrors _ kv hkv
    rw [heq]
    exact jobErrorsCollector_count_pos q jobType now window kv2 hkv2
  · intro kv hkv
    exact List.length_pos.mpr (durationCounters_nonempty q now window kv hkv)
  · intro kv hkv
    exact List.length_pos.mpr (latencyCounters_nonempty q now window kv hkv)
  · intro kv hkv
    exact List.length_pos.mpr (runningCounters_nonempty q now kv hkv)

/-- A completed status record with two (duplicated) errors. -/
def wStatE : JobStatusInfo :=
  { ID := "e1", Completed := true, InProgress := false,
    ModificationTime := 0, ErrorCount := 2, Errors := ["x", "x"] }

/-- The job the record `e1` resolves to. -/
def wJobE : Job :=
  { typeName := "T", timeInfo := { Created := 0, Start := 1, End := 95 },
    status := wStatE }

/-- An in-progress status record. -/
def wStatR : JobStatusInfo :=
  { ID := "r1", Completed := false, InProgress := true,
    ModificationTime := 0, ErrorCount := 0, Errors := [] }

/-- The job the record `r1` resolves to. -/
def wJobR : Job :=
  { typeName := "T", timeInfo := { Created := 10, Start := 20, End := 0 },
    status := wStatR }

/-- A queue with one completed errored job and one running job, both of type
`T`. -/
def wQueue : Queue :=
  { JobStats := [wStatE, wStatR], Results := [wJobE],
    Get := fun id =>
      if id = "e1" then (wJobE, true)
      else if id = "r1" then (wJobR, true)
      else (zeroJob, false) }

/-- The full-error bucket accumulated by `wQueue`. -/
def wBucketAll : JobErrorsForType :=
  { ID := "", Count := 1, Total := 2, Average := 0, Errors := ["x", "x"] }

/-- The stats-only bucket accumulated by `wQueue`. -/
def wBucketStats : JobErrorsForType :=
  { ID := "", Count := 1, Total := 2, Average := 0, Errors := [] }

/-- The deduplicated bucket accumulated by `wQueue`. -/
def wBucketU : JobErrorsForType :=
  { ID := "", Count := 1, Total := 2, Average := 0, Errors := ["x"] }

/-- Witness for C10 at a concrete queue: each collector holds the expected
bucket and the theorem yields its non-triviality. -/
theorem render_buckets_nonzero_witness :
    (("T", wBucketAll) ∈ errorsCollector wQueue 100 2000000000 ∧
      0 < wBucketAll.Count) ∧
    (("T", wBucketStats) ∈ statsOnlyCollector wQueue 100 2000000000 ∧
      0 < wBucketStats.Count) ∧
    (("T", wBucketAll) ∈ jobErrorsCollector wQueue "T" 100 2000000000 ∧
      0 < wBucketAll.Count) ∧
    (("T", wBucketStats) ∈ jobStatsOnlyCollector wQueue "T" 100 2000000000 ∧
      0 < wBucketStats.Count) ∧
    (("T", wBucketU) ∈ dedupErrors (errorsCollector wQueue 100 2000000000) ∧
      0 < wBucketU.Count) ∧
    (("T", wBucketU) ∈ dedupErrors (jobErrorsCollector wQueue "T" 100 2000000000) ∧
      0 < wBucketU.Count) ∧
    (("T", [(94 : Int)]) ∈ durationCounters wQueue 100 2000000000 ∧
      1 ≤ [(94 : Int)].length) ∧
    (("T", [(90 : Int)]) ∈ latencyCounters wQueue 100 2000000000 ∧
      1 ≤ [(90 : Int)].length) ∧
    (("T", [(80 : Int)]) ∈ runningCounters wQueue 100 ∧
      1 ≤ [(80 : Int)].length) := by
  have h := render_buckets_nonzero wQueue "T" 100 2000000000
  exact ⟨⟨by decide, h.1 ("T", wBucketAll) (by decide)⟩,
    ⟨by decide, h.2.1 ("T", wBucketStats) (by decide)⟩,
    ⟨by decide, h.2.2.1 ("T", wBucketAll) (by decide)⟩,
    ⟨by decide, h.2.2.2.1 ("T", wBucketStats) (by decide)⟩,
    ⟨by decide, h.2.2.2.2.1 ("T", wBucketU) (by decide)⟩,
    ⟨by decide, h.2.2.2.2.2.1 ("T", wBucketU) (by decide)⟩,
    ⟨by decide, h.2.2.2.2.2.2.1 ("T", [(94 : Int)]) (by decide)⟩,
    ⟨by decide, h.2.2.2.2.2.2.2.1 ("T", [(90 : Int)]) (by decide)⟩,
    ⟨by decide, h.2.2.2.2.2.2.2.2 ("T", [(80 : Int)]) (by decide)⟩⟩

/-! ## C3: the average is the truncated integer quotient -/

/-- A completed record with two errors. -/
def c3StatA : JobStatusInfo :=
  { ID := "a", Completed := true, InProgress := false,
    ModificationTime := 0, ErrorCount := 2, Errors := ["e1", "e2"] }

/-- A completed record with one error. -/
def c3StatB : JobStatusInfo :=
  { ID := "b", Completed := true, InProgress := false,
    ModificationTime := 0, ErrorCount := 1, Errors := ["e3"] }

/-- The job the record `a` resolves to. -/
def c3JobA : Job :=
  { typeName := "unittest", timeInfo := { Created := 0, Start := 1, End := 95 },
    status := c3StatA }

/-- The job the record `b` resolves to. -/
def c3JobB : Job :=
  { typeName := "unittest", timeInfo := { Created := 0, Start := 1, End := 90 },
    status := c3StatB }

/-- A queue with two completed errored jobs of type `unittest`, with error
counts 2 and 1 (total 3 over 2 jobs: the exact quotient 3/2 is not an
integer). -/
def c3Queue : Queue :=
  { JobStats := [c3StatA, c3StatB], Results := [],
    Get := fun id =>
      if id = "a" then (c3JobA, true)
      else if id = "b" then (c3JobB, true)
      else (zeroJob, false) }

/-- The bucket `RecentErrors(AllErrors)` reports for `c3Queue`: the code
computes `float64(3 / 2) = 1`, not the rational quotient `3/2`. -/
def c3Bucket : JobErrorsForType :=
  { ID := "unittest", Count := 2, Total := 3, Average := 1,
    Errors := ["e1", "e2", "e3"] }

/-- C3 (counterexample): on a queue whose only bucket has `totalErrors = 3`
over `count = 2`, the reported `averageErrorsPerJob` is `float64(3 / 2) = 1`
(Go integer division before the float conversion), which differs from the
exact rational quotient `3/2` — refuting the claim that the average equals
`totalErrors / count` as a rational/real quotient. -/
theorem recentErrors_average_not_rational_quotient :
    RecentErrors c3Queue 100 2000000000 AllErrors =
      .ok { Period := 2000000000, FilteredByType := false, Data := [c3Bucket] } ∧
    ((c3Bucket.Average : Rat) ≠ (c3Bucket.Total : Rat) / (c3Bucket.Count : Rat)) := by
  constructor
  · rfl
  · norm_num [c3Bucket]

theorem render_counts_pos (c : List (String × JobErrorsForType))
    (hc : ∀ kv ∈ c, 0 < kv.2.Count) :
    ∀ b ∈ renderErrorReports c, 0 < b.Count ∧ b.Average = b.Total / b.Count := by
  intro b hb
  obtain ⟨kv, hkv, hbeq⟩ := mem_renderErrorReports _ _ hb
  refine ⟨?_, ?_⟩
  · rw [hbeq]
    exact hc kv hkv
  · rw [hbeq]

theorem dedup_count_pos (c : List (String × JobErrorsForType))
    (hc : ∀ kv ∈ c, 0 < kv.2.Count) :
    ∀ kv ∈ dedupErrors c, 0 < kv.2.Count := by
  intro kv hkv
  obtain ⟨kv2, hkv2, heq⟩ := mem_dedupErrors _ _ hkv
  rw [heq]
  exact hc kv2 hkv2

/-- C3 (amended): in every report of `RecentErrors` and `RecentJobErrors`,
every bucket has `count > 0` (no `count == 0` bucket ever appears) and
`averageErrorsPerJob` equals the integer-truncated quotient
`totalErrors / count` (the value of Go's `float64(v.Total / v.Count)`),
rather than the exact rational quotient. -/
theorem recentErrors_average_truncated_quotient (q : Queue) (jobType : String)
    (now window : Int) (f : ErrorFilter) :
    (∀ r, RecentErrors q now window f = .ok r →
      ∀ b ∈ r.Data, 0 < b.Count ∧ b.Average = b.Total / b.Count) ∧
    (∀ r, RecentJobErrors q jobType now window f = .ok r →
      ∀ b ∈ r.Data, 0 < b.Count ∧ b.Average = b.Total / b.Count) := by
  constructor
  · intro r hr
    cases hv : ErrorFilter.Validate f with
    | some e => simp [RecentErrors, hv] at hr
    | none =>
      by_cases hw : window ≤ second
      · rcases (errorValidate_eq_none_iff f).mp hv with hf | hf | hf <;> subst hf
        · rw [RecentErrors_unique_eq, if_pos hw] at hr
          exact absurd hr (by simp)
        · rw [RecentErrors_all_eq, if_pos hw] at hr
          exact absurd hr (by simp)
        · rw [RecentErrors_stats_eq, if_pos hw] at hr
          exact absurd hr (by simp)
      · rcases (errorValidate_eq_none_iff f).mp hv with hf | hf | hf <;> subst hf
        · rw [RecentErrors_unique_eq, if_neg hw] at hr
          injection hr with h2
          rw [← h2]
          exact render_counts_pos _ (dedup_count_pos _ (errorsCollector_count_pos q now window))
        · rw [RecentErrors_all_eq, if_neg hw] at hr
          injection hr with h2
          rw [← h2]
          exact render_counts_pos _ (errorsCollector_count_pos q now window)
        · rw [RecentErrors_stats_eq, if_neg hw] at hr
          injection hr with h2
          rw [← h2]
          exact render_counts_pos _ (statsOnlyCollector_count_pos q now window)
  · intro r hr
    cases hv : ErrorFilter.Validate f with
    | some e => simp [RecentJobErrors, hv] at hr
    | none =>
      by_cases hw : window ≤ second
      · rcases (errorValidate_eq_none_iff f).mp hv with hf | hf | hf <;> subst hf
        · rw [RecentJobErrors_unique_eq, if_pos hw] at hr
          exact absurd hr (by simp)
        · rw [RecentJobErrors_all_eq, if_pos hw] at hr
          exact absurd hr (by simp)
        · rw [RecentJobErrors_stats_eq, if_pos hw] at hr
          exact absurd hr (by simp)
      · rcases (errorValidate_eq_none_iff f).mp hv with hf | hf | hf <;> subst hf
        · rw [RecentJobErrors_unique_eq, if_neg hw] at hr
          injection hr with h2
          rw [← h2]
          exact render_counts_pos _
            (dedup_count_pos _ (jobErrorsCollector_count_pos q jobType now window))
        · rw [RecentJobErrors_all_eq, if_neg hw] at hr
          injection hr with h2
          rw [← h2]
          exact render_counts_pos _ (jobErrorsCollector_count_pos q jobType now window)
        · rw [RecentJobErrors_stats_eq, if_neg hw] at hr
          injection hr with h2
          rw [← h2]
          exact render_counts_pos _ (jobStatsOnlyCollector_count_pos q jobType now window)

/-- Witness for the amended C3 at a concrete queue: the single reported
bucket has `count = 2 > 0` and `averageErrorsPerJob = 1 = 3 / 2` under
truncated integer division. -/
theorem recentErrors_average_truncated_quotient_witness :
    RecentErrors c3Queue 100 2000000000 AllErrors =
      .ok { Period := 2000000000, FilteredByType := false, Data := [c3Bucket] } ∧
    0 < c3Bucket.Count ∧ c3Bucket.Average = c3Bucket.Total / c3Bucket.Count := by
  have h := (recentErrors_average_truncated_quotient c3Queue "unittest"
    100 2000000000 AllErrors).1
    { Period := 2000000000, FilteredByType := false, Data := [c3Bucket] }
    rfl c3Bucket (by decide)
  exact ⟨rfl, h.1, h.2⟩

/-! ## C6: the three error-reporting modes -/

theorem render_dedup_nodup (c : List (String × JobErrorsForType)) :
    ∀ b ∈ renderErrorReports (dedupErrors c), b.Errors.Nodup := by
  intro b hb
  obtain ⟨kv, hkv, hbeq⟩ := mem_renderErrorReports _ _ hb
  obtain ⟨kv2, hkv2, heq⟩ := mem_dedupErrors _ _ hkv
  rw [hbeq, heq]
  exact List.nodup_dedup _

theorem render_all_errors (q : Queue) (now window : Int) :
    ∀ b ∈ renderErrorReports (errorsCollector q now window),
      b.Errors =
        ((q.JobStats.filter (errMatches q now window b.ID)).map
          JobStatusInfo.Errors).flatten := by
  intro b hb
  obtain ⟨kv, hkv, hbeq⟩ := mem_renderErrorReports _ _ hb
  have hlook := lookupAssoc_of_mem_nodup _ kv (errorsCollector_keys_nodup q now window) hkv
  have hchar2 : ((lookupAssoc (errorsCollector q now window) kv.1).getD zeroJEFT).Errors =
      ((lookupAssoc ([] : List (String × JobErrorsForType)) kv.1).getD zeroJEFT).Errors ++
      ((q.JobStats.filter (errMatches q now window kv.1)).map
        JobStatusInfo.Errors).flatten :=
    (errorsFold_lookup q now window q.JobStats [] kv.1).2.2
  rw [hlook] at hchar2
  simp only [Option.getD_some, lookupAssoc, Option.getD_none, zeroJEFT,
    List.nil_append] at hchar2
  subst hbeq
  show kv.2.Errors =
    ((q.JobStats.filter (errMatches q now window kv.1)).map JobStatusInfo.Errors).flatten
  exact hchar2

theorem render_job_all_errors (q : Queue) (jobType : String) (now window : Int) :
    ∀ b ∈ renderErrorReports (jobErrorsCollector q jobType now window),
      b.ID = jobType ∧
      b.Errors =
        ((q.JobStats.filter (jobErrMatches q jobType now window)).map
          JobStatusInfo.Errors).flatten := by
  intro b hb
  obtain ⟨kv, hkv, hbeq⟩ := mem_renderErrorReports _ _ hb
  have hkey : kv.1 = jobType := jobErrorsCollector_keys q jobType now window kv hkv
  have hlook := lookupAssoc_of_mem_nodup _ kv
    (jobErrorsCollector_keys_nodup q jobType now window) hkv
  rw [hkey] at hlook
  have hchar2 : ((lookupAssoc (jobErrorsCollector q jobType now window) jobType).getD
        zeroJEFT).Errors =
      ((lookupAssoc ([] : List (String × JobErrorsForType)) jobType).getD zeroJEFT).Errors ++
      ((q.JobStats.filter (jobErrMatches q jobType now window)).map
        JobStatusInfo.Errors).flatten :=
    (jobErrorsFold_lookup q jobType now window q.JobStats []).2.2
  rw [hlook] at hchar2
  simp only [Option.getD_some, lookupAssoc, Option.getD_none, zeroJEFT,
    List.nil_append] at hchar2
  subst hbeq
  refine ⟨hkey, ?_⟩
  show kv.2.Errors =
    ((q.JobStats.filter (jobErrMatches q jobType now window)).map JobStatusInfo.Errors).flatten
  exact hchar2

/-- C6: over any queue state and any window passing validation, for both
`RecentErrors` and `RecentJobErrors`: with `UniqueErrors` every reported
bucket's error list has no duplicate strings; with `AllErrors` every
bucket's error list is exactly the concatenation, in stream order, of the
error lists of the records matching that bucket (duplicates kept); with
`StatsOnly` the report equals the `AllErrors` report with every error list
emptied — same buckets, same `count` and `totalErrors`, empty `errors`. -/
theorem recentErrors_modes (q : Queue) (jobType : String) (now window : Int)
    (h : second < window) :
    (∀ r, RecentErrors q now window UniqueErrors = .ok r →
      ∀ b ∈ r.Data, b.Errors.Nodup) ∧
    (∀ r, RecentErrors q now window AllErrors = .ok r →
      ∀ b ∈ r.Data, b.Errors =
        ((q.JobStats.filter (errMatches q now window b.ID)).map
          JobStatusInfo.Errors).flatten) ∧
    (∀ r rA, RecentErrors q now window StatsOnly = .ok r →
      RecentErrors q now window AllErrors = .ok rA →
      r.Data = rA.Data.map (fun b => { b with Errors := [] })) ∧
    (∀ r, RecentJobErrors q jobType now window UniqueErrors = .ok r →
      ∀ b ∈ r.Data, b.Errors.Nodup) ∧
    (∀ r, RecentJobErrors q jobType now window AllErrors = .ok r →
      ∀ b ∈ r.Data, b.ID = jobType ∧ b.Errors =
        ((q.JobStats.filter (jobErrMatches q jobType now window)).map
          JobStatusInfo.Errors).flatten) ∧
    (∀ r rA, RecentJobErrors q jobType now window StatsOnly = .ok r →
      RecentJobErrors q jobType now window AllErrors = .ok rA →
      r.Data = rA.Data.map (fun b => { b with Errors := [] })) := by
  have hw : ¬ window ≤ second := not_le.mpr h
  refine ⟨?_, ?_, ?_, ?_, ?_, ?_⟩
  · intro r hr
    rw [RecentErrors_unique_eq, if_neg hw] at hr
    injection hr with h2
    rw [← h2]
    exact render_dedup_nodup _
  · intro r hr
    rw [RecentErrors_all_eq, if_neg hw] at hr
    injection hr with h2
    rw [← h2]
    exact render_all_errors q now window
  · intro r rA hr hrA
    rw [RecentErrors_stats_eq, if_neg hw] at hr
    rw [RecentErrors_all_eq, if_neg hw] at hrA
    injection hr with h2
    injection hrA with h3
    rw [← h2, ← h3]
    show renderErrorReports (statsOnlyCollector q now window) = _
    rw [statsOnlyCollector_eq_strip, render_strip]
  · intro r hr
    rw [RecentJobErrors_unique_eq, if_neg hw] at hr
    injection hr with h2
    rw [← h2]
    exact render_dedup_nodup _
  · intro r hr
    rw [RecentJobErrors_all_eq, if_neg hw] at hr
    injection hr with h2
    rw [← h2]
    exact render_job_all_errors q jobType now window
  · intro r rA hr hrA
    rw [RecentJobErrors_stats_eq, if_neg hw] at hr
    rw [RecentJobErrors_all_eq, if_neg hw] at hrA
    injection hr with h2
    injection hrA with h3
    rw [← h2, ← h3]
    show renderErrorReports (jobStatsOnlyCollector q jobType now window) = _
    rw [jobStatsOnlyCollector_eq_strip, render_strip]

/-- Witness for C6 at a concrete queue with a duplicated error string: the
window hypothesis holds and all six mode properties follow at that input. -/
theorem recentErrors_modes_witness :
    second < (2000000000 : Int) ∧
    ((∀ r, RecentErrors wQueue 100 2000000000 UniqueErrors = .ok r →
      ∀ b ∈ r.Data, b.Errors.Nodup) ∧
    (∀ r, RecentErrors wQueue 100 2000000000 AllErrors = .ok r →
      ∀ b ∈ r.Data, b.Errors =
        ((wQueue.JobStats.filter (errMatches wQueue 100 2000000000 b.ID)).map
          JobStatusInfo.Errors).flatten) ∧
    (∀ r rA, RecentErrors wQueue 100 2000000000 StatsOnly = .ok r →
      RecentErrors wQueue 100 2000000000 AllErrors = .ok rA →
      r.Data = rA.Data.map (fun b => { b with Errors := [] })) ∧
    (∀ r, RecentJobErrors wQueue "T" 100 2000000000 UniqueErrors = .ok r →
      ∀ b ∈ r.Data, b.Errors.Nodup) ∧
    (∀ r, RecentJobErrors wQueue "T" 100 2000000000 AllErrors = .ok r →
      ∀ b ∈ r.Data, b.ID = "T" ∧ b.Errors =
        ((wQueue.JobStats.filter (jobErrMatches wQueue "T" 100 2000000000)).map
          JobStatusInfo.Errors).flatten) ∧
    (∀ r rA, RecentJobErrors wQueue "T" 100 2000000000 StatsOnly = .ok r →
      RecentJobErrors wQueue "T" 100 2000000000 AllErrors = .ok rA →
      r.Data = rA.Data.map (fun b => { b with Errors := [] }))) :=
  ⟨by decide, recentErrors_modes wQueue "T" 100 2000000000 (by decide)⟩
